import Mathlib

/-!
# Verification of the rogue-talk server and client cores

A shallow embedding, in Lean 4, of the logic of the `rogue-talk` repository
(a multi-player spatial voice server with a roguelike grid world), together
with theorems settling the specification's claims about it.

Conventions of the embedding:
* Python integers are unbounded, so they are modelled as `Int` (or `Nat`
  where the source only ever holds naturals).
* Python `bytes` are `List Nat` (each entry < 256 where legality matters).
* Python `dict` / `set` are association lists with first-match lookup;
  insertion is modelled by the operation the source performs.
* Fallible operations return `Option`.
* `async` scheduling, wall-clock times and sockets are outside the embedding;
  the embedded handlers are the pure state transformers the server and client
  run, with the messages they emit collected in order into a list.
-/

set_option maxRecDepth 100000

namespace RogueTalk

/-- First-match association-list lookup, the model of Python `dict.get`. -/
def lookupA {α β : Type} [DecidableEq α] : List (α × β) → α → Option β
  | [], _ => none
  | (k, v) :: rest, a => if k = a then some v else lookupA rest a

/-! ## Tiles, levels and doors

`server/level.py` is not present under `src/`; the `Level` record and its
accessors are modelled from the spec (§3): a level is immutable after load and
holds `width`, `height`, a row-major grid of tile characters and a mapping
`(x, y) → DoorInfo`.  The server consults only the `walkable` and `is_door`
fields of a tile definition (spec §3, and `game_server.py` reads no others),
so only those are carried here. -/

/-- The two tile-definition fields the server logic consults
(`common/tiles.py` / `tiles.json`: `walkable`, `is_door`). -/
structure TileDef where
  walkable : Bool
  is_door : Bool
deriving Repr, DecidableEq

/-- A door / teleporter destination (`DoorInfo` of `server/level.py`,
fields per `game_server._parse_level_json`): `target_level = none`
denotes a same-level teleporter. -/
structure DoorInfo where
  x : Int
  y : Int
  target_level : Option String
  target_x : Int
  target_y : Int
deriving Repr, DecidableEq

/-- Modelled from the spec: `server/level.py` is absent from `src/`.
A level holds `width`, `height`, a row-major grid of tile characters
(`tile_at x y` is the character at column `x`, row `y`), and the door table
`(x, y) → DoorInfo` populated by `game_server._parse_level_json`. -/
structure Level where
  width : Int
  height : Int
  tile_at : Int → Int → Char
  doors : List ((Int × Int) × DoorInfo)

/-- Modelled from the spec: `Level.get_door_at` returns the door table entry
at `(x, y)`, if any. -/
def Level.get_door_at (lv : Level) (x y : Int) : Option DoorInfo :=
  lookupA lv.doors (x, y)

/-- The per-session server-side player record (`server/player.py`), restricted
to the fields the embedded logic reads and writes; connection handles and
wall-clock timestamps are outside the embedding. -/
structure Player where
  id : Int
  name : String
  x : Int
  y : Int
  is_muted : Bool
  current_level : String
  public_key : List Nat
deriving Repr, DecidableEq

/-- The `GameServer` state consulted by the steady-state message handlers
(`game_server.GameServer`): the parsed levels (`self.levels`), the per-level
tile definitions (`self.level_tiles`), the `"main"` level kept for fallback
(`self.level`), the module-level fallback tile table (`tile_defs.TILES`) and
default tile (`tile_defs.DEFAULT_TILE`), and the level-distribution data. -/
structure ServerState where
  levels : List (String × Level)
  level_tiles : List (String × List (Char × TileDef))
  mainLevel : Level
  fallbackTiles : List (Char × TileDef)
  defaultTile : TileDef
  level_packs : List (String × List Nat)
  level_manifests : List (String × List (String × (String × Nat)))
  level_file_contents : List (String × List (String × List Nat))

/-- `self.levels.get(player.current_level, self.level)` in `_handle_message`. -/
def effLevel (srv : ServerState) (name : String) : Level :=
  (lookupA srv.levels name).getD srv.mainLevel

/-- `self.level_tiles.get(player.current_level, tile_defs.TILES)`. -/
def effTiles (srv : ServerState) (name : String) : List (Char × TileDef) :=
  (lookupA srv.level_tiles name).getD srv.fallbackTiles

/-- `current_tiles.get(tile_char, tile_defs.DEFAULT_TILE)`. -/
def tileDefAt (srv : ServerState) (name : String) (x y : Int) : TileDef :=
  (lookupA (effTiles srv name) ((effLevel srv name).tile_at x y)).getD srv.defaultTile

/-- Messages the server emits while handling one inbound message, in emission
order.  `worldState` marks a `_broadcast_world_state()` call (its payload is a
snapshot of all players and is not needed by the claims below). -/
inductive OutMsg where
  | positionAck (seq x y : Int)
  | doorTransition (level : String) (x y : Int)
  | worldState
  | levelPackData (data : List Nat)
  | levelManifest (manifest : List (String × (String × Nat)))
  | levelFilesData (files : List (String × List Nat))
deriving Repr, DecidableEq

/-- `door_info.target_level or player.current_level` — Python `or` falls back
on `None` and on the empty string alike. -/
def resolveTarget (t : Option String) (cur : String) : String :=
  match t with
  | none => cur
  | some s => if s = "" then cur else s

/-- `GameServer._handle_door_transition` (game_server.py:731–791): resolve the
target level; if it is a different level that is not loaded, ack at the current
(door) position and return without a broadcast; a same-level target teleports
the player; a loaded different level sends `DOOR_TRANSITION` then updates the
player and acks; both successful paths end in a world-state broadcast. -/
def handleDoorTransition (srv : ServerState) (p : Player) (info : DoorInfo)
    (seq : Int) : Player × List OutMsg :=
  let target_x := info.target_x
  let target_y := info.target_y
  let target_level_name := resolveTarget info.target_level p.current_level
  let is_same_level : Bool := target_level_name = p.current_level
  if !is_same_level ∧ (lookupA srv.levels target_level_name).isNone then
    (p, [.positionAck seq p.x p.y])
  else if is_same_level then
    let p' := { p with x := target_x, y := target_y }
    (p', [.positionAck seq p'.x p'.y, .worldState])
  else
    let p' := { p with current_level := target_level_name,
                       x := target_x, y := target_y }
    (p', [.doorTransition target_level_name target_x target_y,
          .positionAck seq p'.x p'.y, .worldState])

/-- The `POSITION_UPDATE` branch of `GameServer._handle_message`
(game_server.py:796–831): validate adjacency (`abs(dx) <= 1 and
abs(dy) <= 1`), bounds, walkability under the level-specific tiles; commit on
success; follow through a door when the landed tile has `is_door` and a door
table entry; in every non-door path ack the authoritative position and
broadcast the world state. -/
def handlePositionUpdate (srv : ServerState) (p : Player) (seq x y : Int) :
    Player × List OutMsg :=
  let dx := x - p.x
  let dy := y - p.y
  let lv := effLevel srv p.current_level
  if dx.natAbs ≤ 1 ∧ dy.natAbs ≤ 1 then
    if 0 ≤ x ∧ x < lv.width ∧ 0 ≤ y ∧ y < lv.height then
      let td := tileDefAt srv p.current_level x y
      if td.walkable then
        let p1 : Player := { p with x := x, y := y }
        if td.is_door then
          match lv.get_door_at x y with
          | some info => handleDoorTransition srv p1 info seq
          | none => (p1, [.positionAck seq p1.x p1.y, .worldState])
        else
          (p1, [.positionAck seq p1.x p1.y, .worldState])
      else
        (p, [.positionAck seq p.x p.y, .worldState])
    else
      (p, [.positionAck seq p.x p.y, .worldState])
  else
    (p, [.positionAck seq p.x p.y, .worldState])

/-- The spec's validity predicate for a movement update, in the claim's own
terms: `max(|new_x − player.x|, |new_y − player.y|) ≤ 1`, the target is within
the bounds of the player's current level, and the tile there is walkable under
that level's tile definitions. -/
def moveValidClaim (srv : ServerState) (p : Player) (x y : Int) : Prop :=
  max (x - p.x).natAbs (y - p.y).natAbs ≤ 1 ∧
  (0 ≤ x ∧ x < (effLevel srv p.current_level).width ∧
   0 ≤ y ∧ y < (effLevel srv p.current_level).height) ∧
  (tileDefAt srv p.current_level x y).walkable = true

instance (srv : ServerState) (p : Player) (x y : Int) :
    Decidable (moveValidClaim srv p x y) := by
  unfold moveValidClaim; infer_instance

/-- The `POSITION_ACK(seq, x, y)` payloads among a list of emitted messages,
in emission order. -/
def acksOf (msgs : List OutMsg) : List (Int × Int × Int) :=
  msgs.filterMap fun m =>
    match m with
    | .positionAck seq x y => some (seq, x, y)
    | _ => none

/-- The `DOOR_TRANSITION` payloads among a list of emitted messages. -/
def doorTransitionsOf (msgs : List OutMsg) : List (String × Int × Int) :=
  msgs.filterMap fun m =>
    match m with
    | .doorTransition l x y => some (l, x, y)
    | _ => none

/-! ## Traces of position updates (for the ack invariant, claim C3) -/

/-- Process a whole list of `POSITION_UPDATE(seq, x, y)` messages in order,
collecting every message the server emits. -/
def runTrace (srv : ServerState) (p : Player) :
    List (Int × Int × Int) → Player × List OutMsg
  | [] => (p, [])
  | (seq, x, y) :: rest =>
    let r1 := handlePositionUpdate srv p seq x y
    let r2 := runTrace srv r1.1 rest
    (r2.1, r1.2 ++ r2.2)

/-- The player state after each successive update of a trace. -/
def statesAfter (srv : ServerState) (p : Player) :
    List (Int × Int × Int) → List Player
  | [] => []
  | (seq, x, y) :: rest =>
    let p1 := (handlePositionUpdate srv p seq x y).1
    p1 :: statesAfter srv p1 rest

/-- `(x, y)` is within bounds and walkable under the level and tile table the
server resolves for level name `name`. -/
def posOK (srv : ServerState) (name : String) (x y : Int) : Prop :=
  (0 ≤ x ∧ x < (effLevel srv name).width ∧
   0 ≤ y ∧ y < (effLevel srv name).height) ∧
  (tileDefAt srv name x y).walkable = true

instance (srv : ServerState) (name : String) (x y : Int) :
    Decidable (posOK srv name x y) := by
  unfold posOK; infer_instance

/-- Every door table entry of every loaded level has a target that is in
bounds and walkable in its resolved target level (same-level targets in the
door's own level; cross-level targets in the target level whenever that level
is loaded). -/
def doorTargetsOK (srv : ServerState) : Prop :=
  ∀ pr ∈ srv.levels, ∀ e ∈ pr.2.doors,
    (resolveTarget e.2.target_level pr.1 = pr.1 →
      posOK srv pr.1 e.2.target_x e.2.target_y) ∧
    (resolveTarget e.2.target_level pr.1 ≠ pr.1 →
      (lookupA srv.levels (resolveTarget e.2.target_level pr.1)).isSome = true →
      posOK srv (resolveTarget e.2.target_level pr.1) e.2.target_x e.2.target_y)

instance (srv : ServerState) : Decidable (doorTargetsOK srv) := by
  unfold doorTargetsOK; infer_instance

/-- A list of sequence numbers is non-decreasing. -/
def seqsNonDecreasing : List Int → Bool
  | a :: b :: rest => a ≤ b && seqsNonDecreasing (b :: rest)
  | _ => true

/-- The claim `C3` exactly as stated, instantiated to one player processing
one trace of position updates: every `POSITION_ACK(seq, x, y)` the server
sends carries a walkable in-bounds position of the player's current level at
the time it is sent, and ack `seq`s are non-decreasing. -/
def ackInvariantClaim (srv : ServerState) (p : Player)
    (trace : List (Int × Int × Int)) : Prop :=
  acksOf (runTrace srv p trace).2 =
    List.zipWith (fun m (q : Player) => (m.1, q.x, q.y))
      trace (statesAfter srv p trace) ∧
  (∀ q ∈ statesAfter srv p trace, posOK srv q.current_level q.x q.y) ∧
  seqsNonDecreasing ((acksOf (runTrace srv p trace).2).map (·.1)) = true

instance (srv : ServerState) (p : Player) (trace : List (Int × Int × Int)) :
    Decidable (ackInvariantClaim srv p trace) := by
  unfold ackInvariantClaim; infer_instance

/-! ## Steady-state dispatch (`RUNNING` state, claim C7)

`common/protocol.py` is not present under `src/`; the message kinds below are
the protocol's type set, taken from the spec's §4.1 table plus the
`LEVEL_PACK_REQUEST` / `LEVEL_PACK_DATA` and `CLIENT_HELLO` kinds that
`game_server.py` and the unit tests use.  Payloads are carried only for the
kinds the `RUNNING`-state server dispatches on. -/

/-- An inbound protocol message, already parsed by `read_message`. -/
inductive InMsg where
  | position_update (seq x y : Int)
  | level_pack_request (name : String)
  | level_manifest_request (name : String)
  | level_files_request (name : String) (filenames : List String)
  | mute_status (m : Bool)
  | pong
  | auth_challenge
  | auth_response
  | auth_result
  | client_hello
  | server_hello
  | livekit_token
  | level_pack_data
  | level_manifest
  | level_files_data
  | position_ack
  | door_transition
  | world_state
  | player_joined
  | player_left
  | ping
deriving Repr, DecidableEq

/-- The message kinds `GameServer._handle_message` dispatches on in the
`RUNNING` state (game_server.py:793–874). -/
def dispatchedKind : InMsg → Bool
  | .position_update _ _ _ => true
  | .level_pack_request _ => true
  | .level_manifest_request _ => true
  | .level_files_request _ _ => true
  | .mute_status _ => true
  | .pong => true
  | _ => false

/-- `GameServer._handle_message`: dispatch one parsed message.  The `PONG`
branch only touches wall-clock bookkeeping (`last_pong_time`, `ping_ms`),
which is outside the embedding; every undispatched kind falls through the
`elif` chain with no effect. -/
def handleMessage (srv : ServerState) (p : Player) : InMsg → Player × List OutMsg
  | .position_update seq x y => handlePositionUpdate srv p seq x y
  | .level_pack_request name =>
    (p, [.levelPackData ((lookupA srv.level_packs name).getD [])])
  | .level_manifest_request name =>
    (p, [.levelManifest ((lookupA srv.level_manifests name).getD [])])
  | .level_files_request name filenames =>
    let files :=
      match lookupA srv.level_file_contents name with
      | some contents =>
        filenames.filterMap fun f =>
          match lookupA contents f with
          | some c => some (f, c)
          | none => none
      | none => []
    (p, [.levelFilesData files])
  | .mute_status m => ({ p with is_muted := m }, [.worldState])
  | .pong => (p, [])
  | _ => (p, [])

/-- What one turn of `GameServer._message_loop` reads from the wire:
a parsed message, or a failure of `read_message`.  Modelled from the spec:
`read_message` lives in the absent `common/protocol.py`; per spec §4.1 the
reader fails with `UNKNOWN_TYPE` on an unrecognised type byte and with
`FRAMING_ERROR` on a short read. -/
inductive ReadResult where
  | msg (m : InMsg)
  | unknownType
  | framingError
deriving Repr, DecidableEq

/-- The outcome of one turn of the `RUNNING`-state loop. -/
inductive StepOutcome where
  | continueWith (p : Player) (out : List OutMsg)
  | closed
deriving Repr, DecidableEq

/-- One turn of `GameServer._message_loop` (game_server.py:637–654): a parsed
message is handed to `_handle_message` and the loop continues; a failing
`read_message` (unknown type byte or framing error) raises, which unwinds to
`handle_client`'s cleanup and closes the connection. -/
def stepRunning (srv : ServerState) (p : Player) : ReadResult → StepOutcome
  | .msg m =>
    let r := handleMessage srv p m
    .continueWith r.1 r.2
  | .unknownType => .closed
  | .framingError => .closed

/-! ## Authentication (claim C5)

`server/storage.py` and `common/crypto.py` are not present under `src/`; the
registry is modelled from the spec (§4.4: a durable bijection
`name ↔ public_key` with `get_key_by_name` / `get_name_by_key` / `register`),
and signature verification enters as a boolean parameter (its outcome under
Ed25519 is outside the embedding).  Python's `str.isprintable` is likewise a
per-character classifier parameter. -/

/-- The registry: an association list `name ↔ public_key`.  Modelled from the
spec: `server/storage.py` is absent from `src/`. -/
structure AuthStorage where
  bindings : List (String × List Nat)
deriving Repr, DecidableEq

/-- `storage.get_public_key(name)`. -/
def AuthStorage.get_public_key (st : AuthStorage) (name : String) :
    Option (List Nat) :=
  lookupA st.bindings name

/-- `storage.get_name_by_key(key)`: reverse lookup. -/
def AuthStorage.get_name_by_key (st : AuthStorage) (key : List Nat) :
    Option String :=
  match st.bindings.find? (fun b => b.2 = key) with
  | some (n, _) => some n
  | none => none

/-- `storage.register_player(name, key)`: register the binding; fails when the
name is already bound (spec §4.4: on a race the loser sees its name present).
Returns the success flag and the updated registry. -/
def AuthStorage.register_player (st : AuthStorage) (name : String)
    (key : List Nat) : Bool × AuthStorage :=
  match lookupA st.bindings name with
  | some _ => (false, st)
  | none => (true, { bindings := st.bindings ++ [(name, key)] })

/-- The `AUTH_RESULT` codes (spec §4.1). -/
inductive AuthResult where
  | success
  | name_taken
  | key_mismatch
  | invalid_signature
  | invalid_name
  | already_connected
deriving Repr, DecidableEq

/-- The authentication decision of `GameServer.handle_client`
(game_server.py:435–534), given the outcome `sigOK` of
`verify_signature(public_key, nonce, name, signature)` and the printability
classifier: validate the name (`not name or len(name) > 32 or not
name.isprintable()` — Python `len` counts characters), verify the signature,
consult the registry, register a brand-new binding, and finally reject a key
that already has a live session.  Returns the result code and the updated
registry. -/
def authDecision (isPrintable : Char → Bool) (sigOK : Bool)
    (st : AuthStorage) (liveKeys : List (List Nat))
    (name : List Char) (key : List Nat) : AuthResult × AuthStorage :=
  let nameStr : String := ⟨name⟩
  if name.length = 0 ∨ name.length > 32 ∨ ¬ (name.all isPrintable) then
    (.invalid_name, st)
  else if !sigOK then
    (.invalid_signature, st)
  else
    match st.get_public_key nameStr with
    | some existing_key =>
      if existing_key ≠ key then (.name_taken, st)
      else if key ∈ liveKeys then (.already_connected, st)
      else (.success, st)
    | none =>
      match st.get_name_by_key key with
      | some _ => (.key_mismatch, st)
      | none =>
        let r := st.register_player nameStr key
        if !r.1 then (.name_taken, st)
        else if key ∈ liveKeys then (.already_connected, r.2)
        else (.success, r.2)

/-- The UTF-8 encoded size of one character (1–4 bytes by scalar value). -/
def utf8Size (c : Char) : Nat :=
  if c.toNat < 0x80 then 1
  else if c.toNat < 0x800 then 2
  else if c.toNat < 0x10000 then 3
  else 4

/-- The UTF-8 byte length of a name. -/
def utf8Len (name : List Char) : Nat :=
  (name.map utf8Size).sum

/-! ## Client-side prediction and reconciliation (claim C8)

`client/level.py` is not present under `src/`; the client's local walkability
test `self.level.is_walkable(x, y)` enters the embedding as a function
parameter, and `self.level`'s truthiness as the `has_level` flag. -/

/-- The part of `GameClient` state that `POSITION_ACK` handling touches
(game_client.py): local position, the map
`pending_moves : seq → (dx, dy, expected_x, expected_y)`, and the loaded
level's walkability. -/
structure ClientState where
  x : Int
  y : Int
  pending_moves : List (Int × (Int × Int × Int × Int))
  has_level : Bool
  walkableAt : Int → Int → Bool

/-- The replay loop of the `POSITION_ACK` branch: walk the given sequence
numbers in order, apply each pending delta only if the resulting tile is
locally walkable. -/
def replayMoves (c : ClientState) : List Int → ClientState
  | [] => c
  | s :: rest =>
    match lookupA c.pending_moves s with
    | some (dx, dy, _, _) =>
      let nx := c.x + dx
      let ny := c.y + dy
      if c.walkableAt nx ny then replayMoves { c with x := nx, y := ny } rest
      else replayMoves c rest
    | none => replayMoves c rest

/-- Insertion into a sorted list of sequence numbers. -/
def insertSorted (k : Int) : List Int → List Int
  | [] => [k]
  | a :: rest => if k ≤ a then k :: a :: rest else a :: insertSorted k rest

/-- `sorted(...)` over the pending sequence numbers. -/
def sortKeys : List Int → List Int
  | [] => []
  | a :: rest => insertSorted a (sortKeys rest)

/-- The rejection test of the `POSITION_ACK` branch: the pending move
numbered exactly `seq`, when present, expected a different position. -/
def ackRejected (c : ClientState) (seq sx sy : Int) : Bool :=
  match lookupA c.pending_moves seq with
  | some (_, _, ex, ey) => sx ≠ ex ∨ sy ≠ ey
  | none => false

/-- The pending moves surviving an ack: those with number `> seq`
(`[s for s in self._pending_moves if s <= seq]` is deleted). -/
def keptMoves (c : ClientState) (seq : Int) :
    List (Int × (Int × Int × Int × Int)) :=
  c.pending_moves.filter fun kv => decide (seq < kv.1)

/-- The `POSITION_ACK` branch of `GameClient._handle_server_message`
(game_client.py:700–729): test the move numbered exactly `seq` against the
server position; remove every pending move with number `≤ seq`; on rejection
clear all pending moves; snap to the server position; replay the surviving
deltas in ascending sequence order against local walkability. -/
def handlePositionAck (c : ClientState) (seq sx sy : Int) : ClientState :=
  let move_rejected := ackRejected c seq sx sy
  let pending2 := if move_rejected then [] else keptMoves c seq
  let base : ClientState := { c with x := sx, y := sy, pending_moves := pending2 }
  if pending2 ≠ [] ∧ c.has_level = true ∧ move_rejected = false then
    replayMoves base (sortKeys (pending2.map (·.1)))
  else base

/-- Specification-side formulation of the replay: starting from a position,
apply each delta in turn, keeping the move only if its landing tile is
walkable. -/
def applyDeltas (W : Int → Int → Bool) : (Int × Int) → List (Int × Int) → Int × Int
  | pos, [] => pos
  | (px, py), (dx, dy) :: rest =>
    if W (px + dx) (py + dy) then applyDeltas W (px + dx, py + dy) rest
    else applyDeltas W (px, py) rest

/-- The deltas of a pending-move map, in ascending sequence order. -/
def deltasInOrder (moves : List (Int × (Int × Int × Int × Int))) :
    List (Int × Int) :=
  (sortKeys (moves.map (·.1))).filterMap fun s =>
    (lookupA moves s).map fun mv => (mv.1, mv.2.1)

/-! ## Content-addressed level cache (claim C6)

`client/level_cache.py`.  The on-disk cache directory is modelled as a list of
entries `((level, hash) ↦ bytes)`, newest first (a later write under the same
key shadows the older one, like overwriting the file). -/

/-- The client's level cache: entries keyed by `(level_name, content_hash)`. -/
abbrev Cache : Type := List ((String × String) × List Nat)

/-- `cache_file(level, file_hash, content)`: store `content` under
`(level, file_hash)`; the hash is trusted, not recomputed. -/
def cache_file (cache : Cache) (level file_hash : String)
    (content : List Nat) : Cache :=
  ((level, file_hash), content) :: cache

/-- `cache_received_files(level, manifest, files)`: for each received file
that appears in the manifest, store its bytes under the manifest's hash. -/
def cache_received_files (cache : Cache) (level : String)
    (manifest : List (String × (String × Nat)))
    (files : List (String × List Nat)) : Cache :=
  files.foldl
    (fun acc fc =>
      match lookupA manifest fc.1 with
      | some hs => cache_file acc level hs.1 fc.2
      | none => acc)
    cache

/-! ## SHA-256

Modelled from the spec: the repository hashes level files with Python's
`hashlib.sha256(...).hexdigest()`, an external library; the function below is
SHA-256 per FIPS 180-4, producing the lower-case hex digest of a byte list. -/

namespace SHA256

/-- Addition modulo `2^32`. -/
def add32 (a b : Nat) : Nat := (a + b) % 4294967296

/-- Right rotation of a 32-bit word. -/
def rotr (n x : Nat) : Nat := ((x >>> n) ||| (x <<< (32 - n))) % 4294967296

/-- The 64 round constants (FIPS 180-4, written in decimal). -/
def kConst : List Nat :=
  [1116352408, 1899447441, 3049323471, 3921009573, 961987163,
   1508970993, 2453635748, 2870763221, 3624381080, 310598401,
   607225278, 1426881987, 1925078388, 2162078206, 2614888103,
   3248222580, 3835390401, 4022224774, 264347078, 604807628,
   770255983, 1249150122, 1555081692, 1996064986, 2554220882,
   2821834349, 2952996808, 3210313671, 3336571891, 3584528711,
   113926993, 338241895, 666307205, 773529912, 1294757372,
   1396182291, 1695183700, 1986661051, 2177026350, 2456956037,
   2730485921, 2820302411, 3259730800, 3345764771, 3516065817,
   3600352804, 4094571909, 275423344, 430227734, 506948616,
   659060556, 883997877, 958139571, 1322822218, 1537002063,
   1747873779, 1955562222, 2024104815, 2227730452, 2361852424,
   2428436474, 2756734187, 3204031479, 3329325298]

/-- The initial hash value (FIPS 180-4, written in decimal). -/
def hInit : List Nat :=
  [1779033703, 3144134277, 1013904242, 2773480762, 1359893119,
   2600822924, 528734635, 1541459225]

/-- Big-endian bytes of a number, fixed width. -/
def beBytes : Nat → Nat → List Nat
  | 0, _ => []
  | k + 1, n => beBytes k (n / 256) ++ [n % 256]

/-- SHA-256 message padding: `0x80`, zeros to 56 mod 64, then the bit length
as 8 big-endian bytes. -/
def padMessage (msg : List Nat) : List Nat :=
  let L := msg.length
  let r := (L + 1) % 64
  let zeros := if r ≤ 56 then 56 - r else 120 - r
  msg ++ [0x80] ++ List.replicate zeros 0 ++ beBytes 8 (L * 8)

/-- Big-endian 32-bit words of a byte list whose length is a multiple of 4. -/
def toWords : List Nat → List Nat
  | b0 :: b1 :: b2 :: b3 :: rest =>
    (((b0 * 256 + b1) * 256 + b2) * 256 + b3) :: toWords rest
  | _ => []

/-- 64-byte blocks of the padded message (`fuel` bounds the recursion and is
instantiated with the list length). -/
def chunksAux : Nat → List Nat → List (List Nat)
  | 0, _ => []
  | _ + 1, [] => []
  | fuel + 1, l => l.take 64 :: chunksAux fuel (l.drop 64)

def sigma0 (x : Nat) : Nat := rotr 7 x ^^^ rotr 18 x ^^^ (x >>> 3)

def sigma1 (x : Nat) : Nat := rotr 17 x ^^^ rotr 19 x ^^^ (x >>> 10)

def bigSigma0 (x : Nat) : Nat := rotr 2 x ^^^ rotr 13 x ^^^ rotr 22 x

def bigSigma1 (x : Nat) : Nat := rotr 6 x ^^^ rotr 11 x ^^^ rotr 25 x

/-- Extend the 16 schedule words to 64. -/
def schedule (w16 : List Nat) : List Nat :=
  (List.range 48).foldl
    (fun w _ =>
      let n := w.length
      let nw := add32 (add32 (w.getD (n - 16) 0) (sigma0 (w.getD (n - 15) 0)))
                      (add32 (w.getD (n - 7) 0) (sigma1 (w.getD (n - 2) 0)))
      w ++ [nw])
    w16

/-- The working registers of the compression loop. -/
structure Regs where
  a : Nat
  b : Nat
  c : Nat
  d : Nat
  e : Nat
  f : Nat
  g : Nat
  h : Nat

/-- One round of the compression function. -/
def roundStep (r : Regs) (kw : Nat × Nat) : Regs :=
  let ch := (r.e &&& r.f) ^^^ ((r.e ^^^ 0xffffffff) &&& r.g)
  let t1 := add32 (add32 (add32 r.h (bigSigma1 r.e)) (add32 ch kw.1)) kw.2
  let mj := (r.a &&& r.b) ^^^ (r.a &&& r.c) ^^^ (r.b &&& r.c)
  let t2 := add32 (bigSigma0 r.a) mj
  { a := add32 t1 t2, b := r.a, c := r.b, d := r.c,
    e := add32 r.d t1, f := r.e, g := r.f, h := r.g }

/-- Compress one 64-byte block into the running hash. -/
def compressBlock (hv : List Nat) (block : List Nat) : List Nat :=
  let w := schedule (toWords block)
  let init : Regs :=
    { a := hv.getD 0 0, b := hv.getD 1 0, c := hv.getD 2 0, d := hv.getD 3 0,
      e := hv.getD 4 0, f := hv.getD 5 0, g := hv.getD 6 0, h := hv.getD 7 0 }
  let r := (kConst.zip w).foldl roundStep init
  [add32 (hv.getD 0 0) r.a, add32 (hv.getD 1 0) r.b,
   add32 (hv.getD 2 0) r.c, add32 (hv.getD 3 0) r.d,
   add32 (hv.getD 4 0) r.e, add32 (hv.getD 5 0) r.f,
   add32 (hv.getD 6 0) r.g, add32 (hv.getD 7 0) r.h]

/-- The SHA-256 digest of a byte list, as eight 32-bit words. -/
def digestWords (msg : List Nat) : List Nat :=
  let padded := padMessage msg
  (chunksAux padded.length padded).foldl compressBlock hInit

/-- A lower-case hex digit. -/
def hexChar (n : Nat) : Char :=
  if n < 10 then Char.ofNat (48 + n) else Char.ofNat (87 + n)

/-- Lower-case hex of one 32-bit word (8 digits). -/
def wordHex (w : Nat) : List Char :=
  (beBytes 4 w).foldr (fun b acc => hexChar (b / 16) :: hexChar (b % 16) :: acc) []

end SHA256

/-- `hashlib.sha256(content).hexdigest()`: the lower-case hex SHA-256 digest
of a byte list. -/
def sha256Hex (msg : List Nat) : String :=
  ⟨(SHA256.digestWords msg).foldr (fun w acc => SHA256.wordHex w ++ acc) []⟩

/-! ## A* pathfinding (`bot/pathfinding.py`, claims C9 and C10)

`client/level.py` is not present under `src/`, so `level.is_walkable(x, y)`
enters as a function parameter (exactly the shape of
`find_path_with_custom_walkable`, whose body is identical).  Python floats in
`g_score` / `f_score` only ever hold small naturals (costs are `+ 1` from 0,
the heuristic is a Chebyshev distance), so they are `Nat` here.  `heapq` is
modelled as a priority queue: `popMin` removes an element of minimal
`f_score`.  The reconstruction `while` loop carries a fuel argument; the
theorems below prove the fuel chosen always suffices on the states
`find_path` reaches, so the embedding agrees with the source wherever the
source terminates. -/

namespace Path

/-- A grid position `(x, y)`. -/
abbrev Pos : Type := Int × Int

/-- `_Node`: `f_score` orders the priority queue; `position` and `g_score`
do not compare. -/
structure Node where
  f : Nat
  position : Pos
  g : Nat
deriving Repr, DecidableEq

/-- `_heuristic`: Chebyshev distance. -/
def heuristic (a b : Pos) : Nat :=
  max (a.1 - b.1).natAbs (a.2 - b.2).natAbs

/-- `_get_neighbors`: the 8 neighbouring positions, in source order. -/
def getNeighbors (x y : Int) : List Pos :=
  [(x + 1, y), (x - 1, y), (x, y + 1), (x, y - 1),
   (x + 1, y + 1), (x + 1, y - 1), (x - 1, y + 1), (x - 1, y - 1)]

/-- `heapq.heappop`: remove an element of minimal `f` (the earliest, on
ties). -/
def popMin : List Node → Option (Node × List Node)
  | [] => none
  | n :: rest =>
    match popMin rest with
    | none => some (n, [])
    | some (m, rest') => if m.f < n.f then some (m, n :: rest') else some (n, rest)

/-- The loop state: the open-set priority queue, `came_from`, `g_scores` and
`open_positions` (dictionaries as first-match association lists, insertion by
cons). -/
structure AState where
  openSet : List Node
  cameFrom : List (Pos × Pos)
  gScores : List (Pos × Nat)
  openPositions : List Pos

/-- The body of the `for neighbor in _get_neighbors(...)` loop: skip
non-walkable neighbours and diagonal moves whose orthogonal neighbours are
not both walkable; on a strictly better `g`, record `came_from` and
`g_scores` and push the node unless its position is already open. -/
def processNeighbor (W : Pos → Bool) (goal current : Pos) (currentG : Nat)
    (st : AState) (nb : Pos) : AState :=
  if !(W nb) then st
  else
    let dx := nb.1 - current.1
    let dy := nb.2 - current.2
    if dx ≠ 0 ∧ dy ≠ 0 ∧
        ¬ (W (current.1 + dx, current.2) = true ∧
           W (current.1, current.2 + dy) = true) then st
    else
      let tg := currentG + 1
      let better : Bool :=
        match lookupA st.gScores nb with
        | none => true
        | some g => tg < g
      if better then
        let cameFrom' := (nb, current) :: st.cameFrom
        let gScores' := (nb, tg) :: st.gScores
        let f := tg + heuristic nb goal
        if nb ∈ st.openPositions then
          { st with cameFrom := cameFrom', gScores := gScores' }
        else
          { openSet := st.openSet ++ [⟨f, nb, tg⟩],
            cameFrom := cameFrom', gScores := gScores',
            openPositions := nb :: st.openPositions }
      else st

/-- Path reconstruction: follow `came_from` from the goal, accumulating the
path in start-to-goal order (the source appends then reverses; the
accumulator builds the reversed list directly).  `fuel` bounds the `while`
loop; `find_path` passes a fuel that provably suffices. -/
def reconstruct (cf : List (Pos × Pos)) : Nat → Pos → List Pos → List Pos
  | 0, cur, acc => cur :: acc
  | fuel + 1, cur, acc =>
    match lookupA cf cur with
    | none => cur :: acc
    | some p => reconstruct cf fuel p (cur :: acc)

/-- The main `while open_set and iterations < max_iterations` loop of
`find_path`. -/
def aStarLoop (W : Pos → Bool) (goal : Pos) :
    Nat → AState → Option (List Pos)
  | 0, _ => none
  | fuel + 1, st =>
    match popMin st.openSet with
    | none => none
    | some (node, rest) =>
      let current := node.position
      let st1 : AState :=
        { st with openSet := rest,
                  openPositions := st.openPositions.filter (· ≠ current) }
      if current = goal then
        some (reconstruct st1.cameFrom
          (((lookupA st1.gScores goal).getD 0) + 1) current [])
      else
        let currentG := (lookupA st1.gScores current).getD 0
        let st2 := (getNeighbors current.1 current.2).foldl
          (processNeighbor W goal current currentG) st1
        aStarLoop W goal fuel st2

/-- `find_path(start, goal, level, max_iterations)`
(pathfinding.py:44–129). -/
def find_path (start goal : Pos) (W : Pos → Bool)
    (max_iterations : Nat) : Option (List Pos) :=
  if start = goal then some [start]
  else if !(W goal) then none
  else
    aStarLoop W goal max_iterations
      { openSet := [⟨heuristic start goal, start, 0⟩],
        cameFrom := [],
        gScores := [(start, 0)],
        openPositions := [start] }

/-- A legal step of a returned path: the positions are at Chebyshev distance
exactly 1, the landing tile is walkable, and a diagonal step has both its
orthogonal neighbours walkable. -/
def stepOk (W : Pos → Bool) (p n : Pos) : Prop :=
  max (n.1 - p.1).natAbs (n.2 - p.2).natAbs = 1 ∧
  W n = true ∧
  (n.1 - p.1 ≠ 0 ∧ n.2 - p.2 ≠ 0 →
    W (p.1 + (n.1 - p.1), p.2) = true ∧ W (p.1, p.2 + (n.2 - p.2)) = true)

/-- The recorded cost of a position (`g_scores[pos]`, defaulting like the
code never needs to). -/
def gVal (gs : List (Pos × Nat)) (pos : Pos) : Nat :=
  (lookupA gs pos).getD 0

/-- The loop invariant of `find_path`: every active `came_from` binding is a
legal step whose parent is the start or itself bound, with strictly smaller
recorded cost and recorded costs on both ends; every open node's position is
the start or bound; the start is never bound and keeps cost 0. -/
def Inv (W : Pos → Bool) (start : Pos) (st : AState) : Prop :=
  (∀ pos parent, lookupA st.cameFrom pos = some parent →
    stepOk W parent pos ∧
    (parent = start ∨ (lookupA st.cameFrom parent).isSome = true) ∧
    gVal st.gScores parent + 1 ≤ gVal st.gScores pos ∧
    (lookupA st.gScores pos).isSome = true ∧
    (lookupA st.gScores parent).isSome = true) ∧
  (∀ nd ∈ st.openSet, nd.position = start ∨
    (lookupA st.cameFrom nd.position).isSome = true) ∧
  lookupA st.cameFrom start = none ∧
  lookupA st.gScores start = some 0

end Path

/-! ## Wire codec (claim C4)

Modelled from the spec: `common/protocol.py` is absent from `src/`.  The
payload encodings follow the spec's §4.1 table: all integers big-endian,
strings are `{u16 length, utf-8 bytes}` (a string value is carried here as
its UTF-8 byte list), byte blobs are `{u32 length, bytes}`, repeated
sections are `{u32 count, elements}`.  The world-state player record carries
`{u32 player_id, u16 x, u16 y, u8 is_muted, name string, level string,
u32 ping_ms}` (the spec fixes the field set in §3; the widths follow the ones
the table uses for the same quantities).  Deserialisers consume the whole
payload and fail on leftovers or short input. -/

namespace Proto

def putU8 (n : Nat) : List Nat := [n]

def putU16 (n : Nat) : List Nat := [n / 256, n % 256]

def putU32 (n : Nat) : List Nat :=
  [n / 16777216, n / 65536 % 256, n / 256 % 256, n % 256]

def getU8 : List Nat → Option (Nat × List Nat)
  | b :: r => some (b, r)
  | [] => none

def getU16 : List Nat → Option (Nat × List Nat)
  | a :: b :: r => some (a * 256 + b, r)
  | _ => none

def getU32 : List Nat → Option (Nat × List Nat)
  | a :: b :: c :: d :: r => some (((a * 256 + b) * 256 + c) * 256 + d, r)
  | _ => none

def getBytesN (n : Nat) (l : List Nat) : Option (List Nat × List Nat) :=
  if n ≤ l.length then some (l.take n, l.drop n) else none

/-- `{u16 length, utf-8 bytes}`. -/
def putStr (s : List Nat) : List Nat := putU16 s.length ++ s

def getStr (l : List Nat) : Option (List Nat × List Nat) :=
  match getU16 l with
  | some (n, r) => getBytesN n r
  | none => none

/-- `{u32 length, bytes}`. -/
def putBlob (s : List Nat) : List Nat := putU32 s.length ++ s

def getBlob (l : List Nat) : Option (List Nat × List Nat) :=
  match getU32 l with
  | some (n, r) => getBytesN n r
  | none => none

/-- `{u32 count, repeated element}`. -/
def putCounted {α : Type} (put1 : α → List Nat) (l : List α) : List Nat :=
  putU32 l.length ++ (l.map put1).flatten

def getCounted {α : Type} (get1 : List Nat → Option (α × List Nat)) :
    Nat → List Nat → Option (List α × List Nat)
  | 0, l => some ([], l)
  | n + 1, l =>
    match get1 l with
    | some (a, r) =>
      match getCounted get1 n r with
      | some (as_, r2) => some (a :: as_, r2)
      | none => none
    | none => none

/-- A world-state player record on the wire. -/
structure PlayerInfoW where
  player_id : Nat
  x : Nat
  y : Nat
  is_muted : Bool
  name : List Nat
  level : List Nat
  ping_ms : Nat
deriving Repr, DecidableEq

def putPlayerInfo (p : PlayerInfoW) : List Nat :=
  putU32 p.player_id ++ putU16 p.x ++ putU16 p.y ++
  putU8 (if p.is_muted then 1 else 0) ++ putStr p.name ++ putStr p.level ++
  putU32 p.ping_ms

def getPlayerInfo (l : List Nat) : Option (PlayerInfoW × List Nat) :=
  match getU32 l with
  | some (pid, r1) =>
    match getU16 r1 with
    | some (x, r2) =>
      match getU16 r2 with
      | some (y, r3) =>
        match getU8 r3 with
        | some (m, r4) =>
          match getStr r4 with
          | some (nm, r5) =>
            match getStr r5 with
            | some (lv, r6) =>
              match getU32 r6 with
              | some (ping, r7) =>
                some (⟨pid, x, y, m ≠ 0, nm, lv, ping⟩, r7)
              | none => none
            | none => none
          | none => none
        | none => none
      | none => none
    | none => none
  | none => none

/-- A manifest entry `{filename, hash-hex, u32 size}`. -/
def putManifestEntry (e : List Nat × List Nat × Nat) : List Nat :=
  putStr e.1 ++ putStr e.2.1 ++ putU32 e.2.2

def getManifestEntry (l : List Nat) :
    Option ((List Nat × List Nat × Nat) × List Nat) :=
  match getStr l with
  | some (f, r1) =>
    match getStr r1 with
    | some (h, r2) =>
      match getU32 r2 with
      | some (sz, r3) => some ((f, h, sz), r3)
      | none => none
    | none => none
  | none => none

/-- A level-files entry `{filename, byte-blob content}`. -/
def putFileEntry (e : List Nat × List Nat) : List Nat :=
  putStr e.1 ++ putBlob e.2

def getFileEntry (l : List Nat) : Option ((List Nat × List Nat) × List Nat) :=
  match getStr l with
  | some (f, r1) =>
    match getBlob r1 with
    | some (c, r2) => some ((f, c), r2)
    | none => none
  | none => none

/-- Run a parser requiring it to consume the whole payload. -/
def runExact {α : Type} (get1 : List Nat → Option (α × List Nat))
    (l : List Nat) : Option α :=
  match get1 l with
  | some (a, []) => some a
  | _ => none

def serialize_auth_challenge (nonce : List Nat) : List Nat := nonce

def deserialize_auth_challenge (l : List Nat) : Option (List Nat) :=
  if l.length = 32 then some l else none

def serialize_auth_response (pk name sig : List Nat) : List Nat :=
  pk ++ putStr name ++ sig

def deserialize_auth_response (l : List Nat) :
    Option (List Nat × List Nat × List Nat) :=
  runExact
    (fun l0 =>
      match getBytesN 32 l0 with
      | some (pk, r1) =>
        match getStr r1 with
        | some (nm, r2) =>
          match getBytesN 64 r2 with
          | some (sig, r3) => some ((pk, nm, sig), r3)
          | none => none
        | none => none
      | none => none)
    l

def serialize_auth_result (code : Nat) : List Nat := putU8 code

def deserialize_auth_result (l : List Nat) : Option Nat := runExact getU8 l

def serialize_server_hello (pid w h x y : Nat) (grid name : List Nat) :
    List Nat :=
  putU32 pid ++ putU16 w ++ putU16 h ++ putU16 x ++ putU16 y ++
  putBlob grid ++ putStr name

def deserialize_server_hello (l : List Nat) :
    Option (Nat × Nat × Nat × Nat × Nat × List Nat × List Nat) :=
  runExact
    (fun l0 =>
      match getU32 l0 with
      | some (pid, r1) =>
        match getU16 r1 with
        | some (w, r2) =>
          match getU16 r2 with
          | some (h, r3) =>
            match getU16 r3 with
            | some (x, r4) =>
              match getU16 r4 with
              | some (y, r5) =>
                match getBlob r5 with
                | some (grid, r6) =>
                  match getStr r6 with
                  | some (nm, r7) => some ((pid, w, h, x, y, grid, nm), r7)
                  | none => none
                | none => none
              | none => none
            | none => none
          | none => none
        | none => none
      | none => none)
    l

def serialize_livekit_token (url token : List Nat) : List Nat :=
  putStr url ++ putStr token

def deserialize_livekit_token (l : List Nat) :
    Option (List Nat × List Nat) :=
  runExact
    (fun l0 =>
      match getStr l0 with
      | some (u, r1) =>
        match getStr r1 with
        | some (t, r2) => some ((u, t), r2)
        | none => none
      | none => none)
    l

def serialize_level_manifest_request (name : List Nat) : List Nat :=
  putStr name

def deserialize_level_manifest_request (l : List Nat) : Option (List Nat) :=
  runExact getStr l

def serialize_level_manifest (m : List (List Nat × List Nat × Nat)) :
    List Nat :=
  putCounted putManifestEntry m

def deserialize_level_manifest (l : List Nat) :
    Option (List (List Nat × List Nat × Nat)) :=
  runExact
    (fun l0 =>
      match getU32 l0 with
      | some (n, r) => getCounted getManifestEntry n r
      | none => none)
    l

def serialize_level_files_request (name : List Nat)
    (filenames : List (List Nat)) : List Nat :=
  putStr name ++ putCounted putStr filenames

def deserialize_level_files_request (l : List Nat) :
    Option (List Nat × List (List Nat)) :=
  runExact
    (fun l0 =>
      match getStr l0 with
      | some (nm, r1) =>
        match getU32 r1 with
        | some (n, r2) =>
          match getCounted getStr n r2 with
          | some (fs, r3) => some ((nm, fs), r3)
          | none => none
        | none => none
      | none => none)
    l

def serialize_level_files_data (files : List (List Nat × List Nat)) :
    List Nat :=
  putCounted putFileEntry files

def deserialize_level_files_data (l : List Nat) :
    Option (List (List Nat × List Nat)) :=
  runExact
    (fun l0 =>
      match getU32 l0 with
      | some (n, r) => getCounted getFileEntry n r
      | none => none)
    l

def serialize_position_update (seq x y : Nat) : List Nat :=
  putU32 seq ++ putU16 x ++ putU16 y

def deserialize_position_update (l : List Nat) :
    Option (Nat × Nat × Nat) :=
  runExact
    (fun l0 =>
      match getU32 l0 with
      | some (seq, r1) =>
        match getU16 r1 with
        | some (x, r2) =>
          match getU16 r2 with
          | some (y, r3) => some ((seq, x, y), r3)
          | none => none
        | none => none
      | none => none)
    l

def serialize_position_ack (seq x y : Nat) : List Nat :=
  serialize_position_update seq x y

def deserialize_position_ack (l : List Nat) : Option (Nat × Nat × Nat) :=
  deserialize_position_update l

def serialize_door_transition (level : List Nat) (x y : Nat) : List Nat :=
  putStr level ++ putU16 x ++ putU16 y

def deserialize_door_transition (l : List Nat) :
    Option (List Nat × Nat × Nat) :=
  runExact
    (fun l0 =>
      match getStr l0 with
      | some (lv, r1) =>
        match getU16 r1 with
        | some (x, r2) =>
          match getU16 r2 with
          | some (y, r3) => some ((lv, x, y), r3)
          | none => none
        | none => none
      | none => none)
    l

def serialize_world_state (ps : List PlayerInfoW) : List Nat :=
  putCounted putPlayerInfo ps

def deserialize_world_state (l : List Nat) : Option (List PlayerInfoW) :=
  runExact
    (fun l0 =>
      match getU32 l0 with
      | some (n, r) => getCounted getPlayerInfo n r
      | none => none)
    l

def serialize_player_joined (pid : Nat) (name : List Nat) : List Nat :=
  putU32 pid ++ putStr name

def deserialize_player_joined (l : List Nat) : Option (Nat × List Nat) :=
  runExact
    (fun l0 =>
      match getU32 l0 with
      | some (pid, r1) =>
        match getStr r1 with
        | some (nm, r2) => some ((pid, nm), r2)
        | none => none
      | none => none)
    l

def serialize_player_left (pid : Nat) : List Nat := putU32 pid

def deserialize_player_left (l : List Nat) : Option Nat := runExact getU32 l

def serialize_mute_status (m : Bool) : List Nat :=
  putU8 (if m then 1 else 0)

def deserialize_mute_status (l : List Nat) : Option Bool :=
  match runExact getU8 l with
  | some b => some (b ≠ 0)
  | none => none

def serialize_ping : List Nat := []

def deserialize_ping (l : List Nat) : Option Unit :=
  if l = [] then some () else none

def serialize_pong : List Nat := []

def deserialize_pong (l : List Nat) : Option Unit :=
  if l = [] then some () else none

/-- Legality of a wire string: its UTF-8 byte list fits a `u16` length and
holds bytes. -/
def legalStr (s : List Nat) : Prop :=
  s.length < 65536 ∧ ∀ b ∈ s, b < 256

/-- Legality of a byte blob: fits a `u32` length and holds bytes. -/
def legalBlob (s : List Nat) : Prop :=
  s.length < 4294967296 ∧ ∀ b ∈ s, b < 256

instance (s : List Nat) : Decidable (legalStr s) := by
  unfold legalStr; infer_instance

instance (s : List Nat) : Decidable (legalBlob s) := by
  unfold legalBlob; infer_instance

/-- Legality of a world-state player record. -/
def legalPlayerInfo (p : PlayerInfoW) : Prop :=
  p.player_id < 4294967296 ∧ p.x < 65536 ∧ p.y < 65536 ∧
  legalStr p.name ∧ legalStr p.level ∧ p.ping_ms < 4294967296

instance (p : PlayerInfoW) : Decidable (legalPlayerInfo p) := by
  unfold legalPlayerInfo; infer_instance

end Proto

/-! ## Concrete fixtures used by witnesses and counterexamples -/

/-- The grid character at `(x, y)` of a list of rows ('#' outside). -/
def gridAt (rows : List String) (x y : Int) : Char :=
  if 0 ≤ x ∧ 0 ≤ y then ((rows.getD y.toNat "").toList).getD x.toNat '#' else '#'

/-- A standard tile table: wall, floor, doors. -/
def tilesStd : List (Char × TileDef) :=
  [('#', ⟨false, false⟩), ('.', ⟨true, false⟩),
   ('D', ⟨true, true⟩), ('T', ⟨true, true⟩)]

/-- A 5×3 main level with a cross-level door `D` at `(3, 1)` into
`dungeon` at `(1, 1)`. -/
def lvMain : Level :=
  { width := 5, height := 3,
    tile_at := gridAt ["#####", "#..D#", "#####"],
    doors := [((3, 1), ⟨3, 1, some "dungeon", 1, 1⟩)] }

/-- A 3×3 dungeon level with one floor tile. -/
def lvDungeon : Level :=
  { width := 3, height := 3,
    tile_at := gridAt ["###", "#.#", "###"],
    doors := [] }

/-- A server with a `main` and a `dungeon` level. -/
def srvA : ServerState :=
  { levels := [("main", lvMain), ("dungeon", lvDungeon)],
    level_tiles := [("main", tilesStd), ("dungeon", tilesStd)],
    mainLevel := lvMain,
    fallbackTiles := tilesStd,
    defaultTile := ⟨false, false⟩,
    level_packs := [], level_manifests := [], level_file_contents := [] }

/-- A player standing at `(1, 1)` on `main`. -/
def pA : Player :=
  { id := 1, name := "alice", x := 1, y := 1, is_muted := false,
    current_level := "main", public_key := [] }

/-- A 4×3 level whose teleporter `T` at `(2, 1)` names the level `limbo`. -/
def lvTele : Level :=
  { width := 4, height := 3,
    tile_at := gridAt ["####", "#.T#", "####"],
    doors := [((2, 1), ⟨2, 1, some "limbo", 1, 1⟩)] }

/-- A server holding only `main := lvTele`; `limbo` is not loaded. -/
def srvB : ServerState :=
  { levels := [("main", lvTele)],
    level_tiles := [("main", tilesStd)],
    mainLevel := lvTele,
    fallbackTiles := tilesStd,
    defaultTile := ⟨false, false⟩,
    level_packs := [], level_manifests := [], level_file_contents := [] }

/-- A player whose saved level `limbo` is no longer loaded; the server falls
back to the `main` level object for it. -/
def pB : Player :=
  { id := 2, name := "bob", x := 1, y := 1, is_muted := false,
    current_level := "limbo", public_key := [] }

/-- A 4×3 level whose teleporter `T` at `(2, 1)` targets the wall at
`(0, 0)` — the configuration `GameServer._validate_level` merely warns
about. -/
def lvBadTele : Level :=
  { width := 4, height := 3,
    tile_at := gridAt ["####", "#.T#", "####"],
    doors := [((2, 1), ⟨2, 1, none, 0, 0⟩)] }

/-- A server holding only `main := lvBadTele`. -/
def srvC : ServerState :=
  { levels := [("main", lvBadTele)],
    level_tiles := [("main", tilesStd)],
    mainLevel := lvBadTele,
    fallbackTiles := tilesStd,
    defaultTile := ⟨false, false⟩,
    level_packs := [], level_manifests := [], level_file_contents := [] }

/-- A player standing at `(1, 1)` on `srvC`'s main level. -/
def pC : Player :=
  { id := 3, name := "carl", x := 1, y := 1, is_muted := false,
    current_level := "main", public_key := [] }

/-- A client with three in-flight moves of one step right each, expecting to
pass through `(2, 0)`, `(3, 0)` and `(4, 0)`, on a fully walkable level. -/
def cC8 : ClientState :=
  { x := 1, y := 0,
    pending_moves := [(1, (1, 0, 2, 0)), (2, (1, 0, 3, 0)), (3, (1, 0, 4, 0))],
    has_level := true,
    walkableAt := fun _ _ => true }

/-! ## Helper lemmas -/

theorem lookupA_mem {α β : Type} [DecidableEq α] {l : List (α × β)} {a : α}
    {b : β} (h : lookupA l a = some b) : (a, b) ∈ l := by
  induction l with
  | nil => simp [lookupA] at h
  | cons hd tl ih =>
    obtain ⟨k, v⟩ := hd
    by_cases hk : k = a
    · subst hk
      simp [lookupA] at h
      simp [h]
    · simp [lookupA, hk] at h
      exact List.mem_cons_of_mem _ (ih h)

/-- Every path of `_handle_door_transition` emits exactly one
`POSITION_ACK`, carrying the player's post-transition coordinates. -/
theorem handleDoorTransition_ack (srv : ServerState) (q : Player)
    (info : DoorInfo) (seq : Int) :
    acksOf (handleDoorTransition srv q info seq).2 =
      [(seq, (handleDoorTransition srv q info seq).1.x,
             (handleDoorTransition srv q info seq).1.y)] := by
  unfold handleDoorTransition
  dsimp only
  split_ifs <;> simp [acksOf]

/-- Every path of the `POSITION_UPDATE` handler emits exactly one
`POSITION_ACK`, carrying the player's post-handling coordinates. -/
theorem handlePositionUpdate_ack (srv : ServerState) (p : Player)
    (seq x y : Int) :
    acksOf (handlePositionUpdate srv p seq x y).2 =
      [(seq, (handlePositionUpdate srv p seq x y).1.x,
             (handlePositionUpdate srv p seq x y).1.y)] := by
  unfold handlePositionUpdate
  dsimp only
  split_ifs with h1 h2 h3 h4
  · cases hdoor : (effLevel srv p.current_level).get_door_at x y with
    | some info => simp [hdoor, handleDoorTransition_ack]
    | none => simp [hdoor, acksOf]
  all_goals simp [acksOf]

/-- The claim's validity predicate coincides with the conditions the handler
tests (`max(|dx|, |dy|) ≤ 1` versus `abs(dx) <= 1 and abs(dy) <= 1`). -/
theorem moveValidClaim_iff (srv : ServerState) (p : Player) (x y : Int) :
    moveValidClaim srv p x y ↔
      ((x - p.x).natAbs ≤ 1 ∧ (y - p.y).natAbs ≤ 1) ∧
      (0 ≤ x ∧ x < (effLevel srv p.current_level).width ∧
       0 ≤ y ∧ y < (effLevel srv p.current_level).height) ∧
      (tileDefAt srv p.current_level x y).walkable = true := by
  unfold moveValidClaim
  rw [max_le_iff]

/-- C1 (confirmed).  For every `POSITION_UPDATE(seq, new_x, new_y)` handled
in the `RUNNING` state: if the move is invalid (non-adjacent under
`max(|Δx|, |Δy|) ≤ 1`, out of bounds, or onto a non-walkable tile) the
player is entirely unchanged; if it is valid the server commits
`(new_x, new_y)` on the unchanged level — unless the landed tile is a door
with a door-table entry, in which case the door follow-through of claim C2
runs after the commit; and in every case the reply is exactly one
`POSITION_ACK(seq, player.x, player.y)` carrying the post-commit
authoritative coordinates. -/
theorem claim_C1 (srv : ServerState) (p : Player) (seq x y : Int) :
    (¬ moveValidClaim srv p x y → (handlePositionUpdate srv p seq x y).1 = p) ∧
    (moveValidClaim srv p x y →
      (((handlePositionUpdate srv p seq x y).1.x = x ∧
        (handlePositionUpdate srv p seq x y).1.y = y ∧
        (handlePositionUpdate srv p seq x y).1.current_level = p.current_level) ∨
       ((tileDefAt srv p.current_level x y).is_door = true ∧
        (effLevel srv p.current_level).get_door_at x y ≠ none))) ∧
    acksOf (handlePositionUpdate srv p seq x y).2 =
      [(seq, (handlePositionUpdate srv p seq x y).1.x,
             (handlePositionUpdate srv p seq x y).1.y)] := by
  refine ⟨?_, ?_, handlePositionUpdate_ack srv p seq x y⟩
  · intro hnv
    rw [moveValidClaim_iff] at hnv
    unfold handlePositionUpdate
    dsimp only
    split_ifs with h1 h2 h3 h4
    · exact absurd ⟨h1, h2, h3⟩ hnv
    · exact absurd ⟨h1, h2, h3⟩ hnv
    · rfl
    · rfl
    · rfl
  · intro hv
    have hv' := (moveValidClaim_iff srv p x y).mp hv
    unfold handlePositionUpdate
    dsimp only
    rw [if_pos hv'.1, if_pos hv'.2.1, if_pos hv'.2.2]
    by_cases h4 : (tileDefAt srv p.current_level x y).is_door = true
    · rw [if_pos h4]
      cases hdoor : (effLevel srv p.current_level).get_door_at x y with
      | some info =>
        simp only [hdoor]
        exact Or.inr ⟨h4, by simp [hdoor]⟩
      | none =>
        simp [hdoor]
    · rw [if_neg h4]
      simp

/-- Witness for C1 at a concrete valid non-door move on `srvA`. -/
theorem claim_C1_witness :
    (handlePositionUpdate srvA pA 7 2 1).1.x = 2 ∧
    acksOf (handlePositionUpdate srvA pA 7 2 1).2 = [(7, 2, 1)] := by
  have h := claim_C1 srvA pA 7 2 1
  have hx : (handlePositionUpdate srvA pA 7 2 1).1.x = 2 := by
    rcases h.2.1 (by decide) with hc | hc
    · exact hc.1
    · exact absurd hc.1 (by decide)
  refine ⟨hx, ?_⟩
  have hy : (handlePositionUpdate srvA pA 7 2 1).1.y = 1 := by
    rcases h.2.1 (by decide) with hc | hc
    · exact hc.2.1
    · exact absurd hc.1 (by decide)
  rw [h.2.2, hx, hy]

/-- C2 (corrected).  For a committed move that lands on a door tile with a
door-table entry: a `null` (or empty) `target_level` teleports within the
level and acks at the target with no `DOOR_TRANSITION`; a loaded target
level *different from the player's current one* gets `DOOR_TRANSITION`
followed by the ack and the level switch; an unloaded target level
*different from the player's current one* is a no-op acked at the door
position.  (When the named target equals the player's current level the
code takes the teleporter path instead — see the counterexample.) -/
theorem claim_C2_amended (srv : ServerState) (p : Player) (seq x y : Int)
    (info : DoorInfo)
    (hv : moveValidClaim srv p x y)
    (hdoor : (tileDefAt srv p.current_level x y).is_door = true)
    (hinfo : (effLevel srv p.current_level).get_door_at x y = some info) :
    (info.target_level = none →
      handlePositionUpdate srv p seq x y =
        ({ p with x := info.target_x, y := info.target_y },
         [.positionAck seq info.target_x info.target_y, .worldState])) ∧
    (∀ L, info.target_level = some L → L ≠ "" → L ≠ p.current_level →
      (lookupA srv.levels L).isSome = true →
      handlePositionUpdate srv p seq x y =
        ({ p with current_level := L, x := info.target_x, y := info.target_y },
         [.doorTransition L info.target_x info.target_y,
          .positionAck seq info.target_x info.target_y, .worldState])) ∧
    (∀ L, info.target_level = some L → L ≠ "" → L ≠ p.current_level →
      lookupA srv.levels L = none →
      handlePositionUpdate srv p seq x y =
        ({ p with x := x, y := y }, [.positionAck seq x y])) := by
  have hv' := (moveValidClaim_iff srv p x y).mp hv
  have hred : handlePositionUpdate srv p seq x y =
      handleDoorTransition srv { p with x := x, y := y } info seq := by
    unfold handlePositionUpdate
    dsimp only
    rw [if_pos hv'.1, if_pos hv'.2.1, if_pos hv'.2.2, if_pos hdoor, hinfo]
  rw [hred]
  refine ⟨?_, ?_, ?_⟩
  · intro ht
    unfold handleDoorTransition
    simp [resolveTarget, ht]
  · intro L hL hne hdiff hsome
    unfold handleDoorTransition
    have hres : resolveTarget info.target_level p.current_level = L := by
      simp [resolveTarget, hL, hne]
    rw [hres]
    simp [hdiff, Option.isNone_iff_eq_none]
    intro hnone
    rw [hnone] at hsome
    simp at hsome
  · intro L hL hne hdiff hnone
    unfold handleDoorTransition
    have hres : resolveTarget info.target_level p.current_level = L := by
      simp [resolveTarget, hL, hne]
    rw [hres]
    simp [hdiff, hnone]

/-- Witness for C2 at the concrete cross-level door of `srvA`. -/
theorem claim_C2_amended_witness :
    handlePositionUpdate srvA { pA with x := 2 } 1 3 1 =
      ({ pA with current_level := "dungeon", x := 1, y := 1 },
       [.doorTransition "dungeon" 1 1, .positionAck 1 1 1, .worldState]) :=
  (claim_C2_amended srvA { pA with x := 2 } 1 3 1 ⟨3, 1, some "dungeon", 1, 1⟩
      (by decide) (by decide) (by decide)).2.1
    "dungeon" rfl (by decide) (by decide) (by decide)

/-- C2 as stated is false: when a door names a non-existent `target_level`
that coincides with the player's (stale) current level name, the code takes
the same-level teleporter path — the player moves to the target and is acked
there, not at the door position. -/
theorem claim_C2_counterexample :
    moveValidClaim srvB pB 2 1 ∧
    (tileDefAt srvB pB.current_level 2 1).is_door = true ∧
    (effLevel srvB pB.current_level).get_door_at 2 1 =
      some ⟨2, 1, some "limbo", 1, 1⟩ ∧
    (lookupA srvB.levels "limbo").isNone = true ∧
    (handlePositionUpdate srvB pB 5 2 1).1.x = 1 ∧
    (handlePositionUpdate srvB pB 5 2 1).1.y = 1 ∧
    acksOf (handlePositionUpdate srvB pB 5 2 1).2 ≠ [(5, 2, 1)] := by
  decide

/-- C10 (confirmed).  `find_path(p, p, level)` returns `[p]` for every
walkability predicate (the walkability of `p` is never consulted), while for
`start ≠ goal` with a non-walkable goal it returns `None`. -/
theorem claim_C10 :
    (∀ (W : Path.Pos → Bool) (p : Path.Pos) (m : Nat),
      Path.find_path p p W m = some [p]) ∧
    (∀ (W : Path.Pos → Bool) (s g : Path.Pos) (m : Nat),
      s ≠ g → W g = false → Path.find_path s g W m = none) := by
  constructor
  · intro W p m
    simp [Path.find_path]
  · intro W s g m hne hw
    simp [Path.find_path, hne, hw]

/-- Witness for C10 with an everywhere-non-walkable predicate. -/
theorem claim_C10_witness :
    Path.find_path (0, 0) (0, 0) (fun _ => false) 10000 = some [(0, 0)] ∧
    Path.find_path (0, 0) (1, 0) (fun _ => false) 10000 = none :=
  ⟨claim_C10.1 _ _ _, claim_C10.2 _ _ _ _ (by decide) rfl⟩

/-- C7 (corrected).  In the `RUNNING` state a message with a *recognised*
type that is not one of the six dispatched kinds is silently ignored — the
player is unchanged, nothing is sent, and the connection stays open; the
connection closes only when `read_message` itself fails (unrecognised type
byte or framing error). -/
theorem claim_C7_amended :
    (∀ (srv : ServerState) (p : Player) (m : InMsg), dispatchedKind m = false →
      stepRunning srv p (.msg m) = .continueWith p []) ∧
    (∀ (srv : ServerState) (p : Player),
      stepRunning srv p .unknownType = .closed ∧
      stepRunning srv p .framingError = .closed) := by
  constructor
  · intro srv p m hm
    cases m <;> first
      | rfl
      | simp [dispatchedKind] at hm
  · intro srv p
    exact ⟨rfl, rfl⟩

/-- Witness for C7 at a concrete undispatched kind and at an unknown type
byte. -/
theorem claim_C7_amended_witness :
    stepRunning srvA pA (.msg .auth_response) = .continueWith pA [] ∧
    stepRunning srvA pA .unknownType = .closed :=
  ⟨claim_C7_amended.1 srvA pA .auth_response rfl,
   (claim_C7_amended.2 srvA pA).1⟩

/-- C7 as stated is false: a recognised but undispatched message type
(here a client-sent `PING`) does not close the connection — the server
ignores it and keeps reading. -/
theorem claim_C7_counterexample :
    dispatchedKind .ping = false ∧
    stepRunning srvA pA (.msg .ping) = .continueWith pA [] ∧
    stepRunning srvA pA (.msg .ping) ≠ .closed := by
  decide

/-- The replay loop computes `applyDeltas` of the looked-up deltas and
touches no other field. -/
theorem replayMoves_spec (l : List Int) (c : ClientState) :
    ((replayMoves c l).x, (replayMoves c l).y) =
      applyDeltas c.walkableAt (c.x, c.y)
        (l.filterMap fun s =>
          (lookupA c.pending_moves s).map fun mv => (mv.1, mv.2.1)) ∧
    (replayMoves c l).pending_moves = c.pending_moves ∧
    (replayMoves c l).has_level = c.has_level ∧
    (replayMoves c l).walkableAt = c.walkableAt := by
  induction l generalizing c with
  | nil => exact ⟨rfl, rfl, rfl, rfl⟩
  | cons s rest ih =>
    unfold replayMoves
    cases hl : lookupA c.pending_moves s with
    | none => simpa [hl] using ih c
    | some mv =>
      obtain ⟨dx, dy, ex, ey⟩ := mv
      by_cases hw : c.walkableAt (c.x + dx) (c.y + dy) = true
      · have h := ih { c with x := c.x + dx, y := c.y + dy }
        simpa [hl, hw, applyDeltas] using h
      · have h := ih c
        rw [Bool.not_eq_true] at hw
        simpa [hl, hw, applyDeltas] using h

/-- C8 (corrected).  On `POSITION_ACK(seq, sx, sy)`: the rejection test uses
only the pending move numbered exactly `seq` (when present); if its expected
position differs from `(sx, sy)` all pending moves are cleared and the
position snaps to `(sx, sy)`; otherwise the moves numbered `≤ seq` are
removed, the position is set to `(sx, sy)`, and the surviving deltas are
reapplied in ascending sequence order, each one only onto a locally walkable
tile (no replay happens without a loaded level). -/
theorem claim_C8_amended (c : ClientState) (seq sx sy : Int) :
    (∀ dx dy ex ey, lookupA c.pending_moves seq = some (dx, dy, ex, ey) →
      (sx ≠ ex ∨ sy ≠ ey) →
      handlePositionAck c seq sx sy =
        { c with x := sx, y := sy, pending_moves := [] }) ∧
    ((∀ dx dy ex ey, lookupA c.pending_moves seq = some (dx, dy, ex, ey) →
        sx = ex ∧ sy = ey) →
      (handlePositionAck c seq sx sy).pending_moves = keptMoves c seq ∧
      ((handlePositionAck c seq sx sy).x, (handlePositionAck c seq sx sy).y) =
        (if c.has_level = true then
          applyDeltas c.walkableAt (sx, sy) (deltasInOrder (keptMoves c seq))
        else (sx, sy))) := by
  constructor
  · intro dx dy ex ey hl hne
    have hrej : ackRejected c seq sx sy = true := by
      unfold ackRejected
      rw [hl]
      simpa using hne
    unfold handlePositionAck
    rw [hrej]
    simp
  · intro hmatch
    have hrej : ackRejected c seq sx sy = false := by
      unfold ackRejected
      cases hl : lookupA c.pending_moves seq with
      | none => rfl
      | some mv =>
        obtain ⟨dx, dy, ex, ey⟩ := mv
        have h := hmatch dx dy ex ey hl
        simp [h.1, h.2]
    unfold handlePositionAck
    rw [hrej]
    simp only [Bool.false_eq_true, if_false, ne_eq]
    by_cases hlev : c.has_level = true
    · by_cases hpend : keptMoves c seq = []
      · rw [if_neg (by simp [hpend])]
        simp [hpend, hlev, deltasInOrder, sortKeys, applyDeltas]
      · rw [if_pos ⟨hpend, hlev, trivial⟩]
        have h := replayMoves_spec (sortKeys ((keptMoves c seq).map (·.1)))
          { c with x := sx, y := sy, pending_moves := keptMoves c seq }
        rw [if_pos hlev]
        exact ⟨h.2.1, h.1⟩
    · rw [if_neg (by simp [hlev])]
      rw [if_neg hlev]
      simp

/-- Witness for C8 at a concrete rejected ack on `cC8`. -/
theorem claim_C8_amended_witness :
    handlePositionAck cC8 2 9 9 = { cC8 with x := 9, y := 9, pending_moves := [] } :=
  (claim_C8_amended cC8 2 9 9).1 1 0 3 0 rfl (by decide)

/-- C8 as stated is false: with pending moves 1..3 and `POSITION_ACK(2, 3, 0)`,
the acked move numbered 1 expected `(2, 0) ≠ (3, 0)`, so the claim requires
clearing all pending moves and snapping to `(3, 0)`; the code instead checks
only move 2 (which matches), keeps move 3 and replays it to `(4, 0)`. -/
theorem claim_C8_counterexample :
    (1, ((1 : Int), (0 : Int), (2 : Int), (0 : Int))) ∈ cC8.pending_moves ∧
    (1 : Int) ≤ 2 ∧ ¬ (((2 : Int), (0 : Int)) = ((3 : Int), (0 : Int))) ∧
    (handlePositionAck cC8 2 3 0).x = 4 ∧
    (handlePositionAck cC8 2 3 0).pending_moves ≠ [] := by
  refine ⟨by decide, by decide, by decide, ?_, ?_⟩
  · rfl
  · decide

/-- C5 (corrected).  The authentication decision, for a verified signature:
acceptance requires a non-empty name of at most 32 *characters* (Python
`len`, not UTF-8 bytes — see the counterexample), all printable; a name
bound to a different key is rejected `NAME_TAKEN` with the registry
untouched; a key bound to a different name is rejected `KEY_MISMATCH`; a
brand-new name and key (given that every live session's key is registered)
are registered and accepted. -/
theorem claim_C5_amended (isPrintable : Char → Bool) (sigOK : Bool)
    (st : AuthStorage) (liveKeys : List (List Nat)) (name : List Char)
    (key : List Nat)
    (hlive : ∀ k ∈ liveKeys, (st.get_name_by_key k).isSome = true) :
    ((authDecision isPrintable sigOK st liveKeys name key).1 = .success →
      sigOK = true ∧ name ≠ [] ∧ name.length ≤ 32 ∧
      name.all isPrintable = true) ∧
    (∀ k', name ≠ [] → name.length ≤ 32 → name.all isPrintable = true →
      sigOK = true → st.get_public_key ⟨name⟩ = some k' → k' ≠ key →
      authDecision isPrintable sigOK st liveKeys name key =
        (.name_taken, st)) ∧
    (name ≠ [] → name.length ≤ 32 → name.all isPrintable = true →
      sigOK = true → st.get_public_key ⟨name⟩ = none →
      (st.get_name_by_key key).isSome = true →
      authDecision isPrintable sigOK st liveKeys name key =
        (.key_mismatch, st)) ∧
    (name ≠ [] → name.length ≤ 32 → name.all isPrintable = true →
      sigOK = true → st.get_public_key ⟨name⟩ = none →
      st.get_name_by_key key = none →
      authDecision isPrintable sigOK st liveKeys name key =
        (.success, ⟨st.bindings ++ [(⟨name⟩, key)]⟩)) := by
  refine ⟨?_, ?_, ?_, ?_⟩
  · intro hsucc
    unfold authDecision at hsucc
    by_cases hname : name.length = 0 ∨ name.length > 32 ∨
        ¬ (name.all isPrintable = true)
    · rw [if_pos hname] at hsucc
      simp at hsucc
    · have hcond := hname
      push_neg at hname
      refine ⟨?_, ?_, hname.2.1, hname.2.2⟩
      · by_cases hs : sigOK = true
        · exact hs
        · rw [if_neg hcond, if_pos (by simp [hs])] at hsucc
          simp at hsucc
      · intro hnil
        subst hnil
        exact hname.1 rfl
  · intro k' hnn hlen hpr hsig h5 h6
    have hcond : ¬ (name.length = 0 ∨ name.length > 32 ∨
        ¬ (name.all isPrintable = true)) := by
      push_neg
      exact ⟨fun h0 => hnn (List.length_eq_zero.mp h0), hlen, hpr⟩
    unfold authDecision
    rw [if_neg hcond, if_neg (by simp [hsig]), h5]
    dsimp only
    rw [if_pos h6]
  · intro hnn hlen hpr hsig h5 h6
    have hcond : ¬ (name.length = 0 ∨ name.length > 32 ∨
        ¬ (name.all isPrintable = true)) := by
      push_neg
      exact ⟨fun h0 => hnn (List.length_eq_zero.mp h0), hlen, hpr⟩
    unfold authDecision
    rw [if_neg hcond, if_neg (by simp [hsig]), h5]
    dsimp only
    obtain ⟨nm, hnm⟩ := Option.isSome_iff_exists.mp h6
    rw [hnm]
  · intro hnn hlen hpr hsig h5 h6
    have hcond : ¬ (name.length = 0 ∨ name.length > 32 ∨
        ¬ (name.all isPrintable = true)) := by
      push_neg
      exact ⟨fun h0 => hnn (List.length_eq_zero.mp h0), hlen, hpr⟩
    unfold authDecision
    rw [if_neg hcond, if_neg (by simp [hsig]), h5]
    dsimp only
    rw [h6]
    have hreg : AuthStorage.register_player st ⟨name⟩ key =
        (true, ⟨st.bindings ++ [(⟨name⟩, key)]⟩) := by
      unfold AuthStorage.register_player
      unfold AuthStorage.get_public_key at h5
      rw [h5]
    rw [hreg]
    have hnl : key ∉ liveKeys := by
      intro hk
      have hI := hlive key hk
      rw [h6] at hI
      simp at hI
    simp [hnl]

/-- Witness for C5: a brand-new name and key register and accept. -/
theorem claim_C5_amended_witness :
    authDecision (fun _ => true) true ⟨[]⟩ [] "carol".toList [1, 2] =
      (.success, ⟨[("carol", [1, 2])]⟩) :=
  (claim_C5_amended (fun _ => true) true ⟨[]⟩ [] "carol".toList [1, 2]
      (by intro k hk; cases hk)).2.2.2
    (by decide) (by decide) (by decide) rfl rfl rfl

/-- C5 as stated is false on the name-length rule: a 17-character name of
two-byte characters is 34 UTF-8 bytes — more than the claimed 32-byte limit —
yet the server accepts it, because the code bounds `len(name)` in
characters. -/
theorem claim_C5_counterexample :
    utf8Len (List.replicate 17 'é') = 34 ∧
    ¬ (utf8Len (List.replicate 17 'é') ≤ 32) ∧
    (authDecision (fun _ => true) true ⟨[]⟩ [] (List.replicate 17 'é')
      [1]).1 = .success := by
  decide

/-- Soundness of `cache_file` under a hash hypothesis, and of
`cache_received_files` when every received file matches its manifest hash:
every entry of the resulting cache hashes to its key.  (The code itself
never recomputes hashes; see the counterexample.) -/
theorem claim_C6_amended (cache : Cache) (level : String)
    (manifest : List (String × (String × Nat)))
    (files : List (String × List Nat))
    (hcache : ∀ e ∈ cache, sha256Hex e.2 = e.1.2)
    (hfiles : ∀ fc ∈ files, ∀ hs : String × Nat,
      lookupA manifest fc.1 = some hs → sha256Hex fc.2 = hs.1) :
    (∀ fhash content, sha256Hex content = fhash →
      ∀ e ∈ cache_file cache level fhash content, sha256Hex e.2 = e.1.2) ∧
    (∀ e ∈ cache_received_files cache level manifest files,
      sha256Hex e.2 = e.1.2) := by
  constructor
  · intro fhash content hh e he
    unfold cache_file at he
    rcases List.mem_cons.mp he with h | h
    · subst h; exact hh
    · exact hcache e h
  · unfold cache_received_files
    induction files generalizing cache with
    | nil => exact hcache
    | cons fc rest ih =>
      intro e he
      rw [List.foldl_cons] at he
      cases hm : lookupA manifest fc.1 with
      | none =>
        rw [hm] at he
        exact ih cache hcache (fun g hg => hfiles g (List.mem_cons_of_mem _ hg)) e he
      | some hs =>
        rw [hm] at he
        refine ih (cache_file cache level hs.1 fc.2) ?_
          (fun g hg => hfiles g (List.mem_cons_of_mem _ hg)) e he
        intro e' he'
        rcases List.mem_cons.mp he' with h | h
        · subst h
          exact hfiles fc (List.mem_cons_self _ _) hs hm
        · exact hcache e' h

/-- Witness for C6: caching a received file whose bytes really hash to the
manifest hash yields a sound entry. -/
theorem claim_C6_amended_witness :
    sha256Hex [0] =
      "6e340b9cffb37a989ca544e6bb780a2c78901d3fb33738768511a30617afa01d" :=
  (claim_C6_amended [] "main"
      [("f", ("6e340b9cffb37a989ca544e6bb780a2c78901d3fb33738768511a30617afa01d",
        1))]
      [("f", [0])]
      (by intro e he; cases he)
      (by
        intro fc hfc hs hhs
        rcases List.mem_singleton.mp hfc with rfl
        simp [lookupA] at hhs
        rw [← hhs]
        decide)).2
    (("main",
      "6e340b9cffb37a989ca544e6bb780a2c78901d3fb33738768511a30617afa01d"),
      [0])
    (by decide)

/-- C6 as stated is false: `cache_received_files` stores received bytes under
the manifest's hash without verifying it, so arbitrary received contents
produce an entry whose bytes do not hash to its key. -/
theorem claim_C6_counterexample :
    (("main",
      "0000000000000000000000000000000000000000000000000000000000000000"),
      [0]) ∈
      cache_received_files [] "main"
        [("f",
          ("0000000000000000000000000000000000000000000000000000000000000000",
           1))]
        [("f", [0])] ∧
    sha256Hex [0] ≠
      "0000000000000000000000000000000000000000000000000000000000000000" := by
  constructor
  · decide
  · decide

/-! ## Codec round-trip lemmas (claim C4) -/

namespace Proto

theorem getU8_put (n : Nat) (rest : List Nat) :
    getU8 (putU8 n ++ rest) = some (n, rest) := rfl

theorem getU16_put (n : Nat) (rest : List Nat) :
    getU16 (putU16 n ++ rest) = some (n, rest) := by
  simp only [putU16, List.cons_append, List.nil_append, getU16,
    Option.some.injEq, Prod.mk.injEq, and_true]
  omega

theorem getU32_put (n : Nat) (rest : List Nat) :
    getU32 (putU32 n ++ rest) = some (n, rest) := by
  simp only [putU32, List.cons_append, List.nil_append, getU32,
    Option.some.injEq, Prod.mk.injEq, and_true]
  omega

theorem getBytesN_put (s rest : List Nat) :
    getBytesN s.length (s ++ rest) = some (s, rest) := by
  unfold getBytesN
  rw [if_pos (by simp)]
  simp

theorem getStr_put (s rest : List Nat) :
    getStr (putStr s ++ rest) = some (s, rest) := by
  unfold getStr putStr
  rw [List.append_assoc, getU16_put]
  exact getBytesN_put s rest

theorem getBlob_put (s rest : List Nat) :
    getBlob (putBlob s ++ rest) = some (s, rest) := by
  unfold getBlob putBlob
  rw [List.append_assoc, getU32_put]
  exact getBytesN_put s rest

theorem getCounted_put {α : Type} (put1 : α → List Nat)
    (get1 : List Nat → Option (α × List Nat)) (l : List α)
    (h : ∀ a ∈ l, ∀ rest, get1 (put1 a ++ rest) = some (a, rest))
    (rest : List Nat) :
    getCounted get1 l.length ((l.map put1).flatten ++ rest) = some (l, rest) := by
  induction l generalizing rest with
  | nil => simp [getCounted]
  | cons a t ih =>
    simp only [List.map_cons, List.flatten_cons, List.length_cons,
      List.append_assoc]
    unfold getCounted
    simp only [h a (List.mem_cons_self a t),
      ih (fun b hb rest2 => h b (List.mem_cons_of_mem _ hb) rest2)]

theorem getPlayerInfo_put (p : PlayerInfoW) (rest : List Nat) :
    getPlayerInfo (putPlayerInfo p ++ rest) = some (p, rest) := by
  obtain ⟨pid, px, py, pm, pn, pl, pp⟩ := p
  unfold getPlayerInfo putPlayerInfo
  simp only [List.append_assoc, getU32_put, getU16_put, getU8_put, getStr_put]
  cases pm <;> simp

theorem getManifestEntry_put (e : List Nat × List Nat × Nat)
    (rest : List Nat) :
    getManifestEntry (putManifestEntry e ++ rest) = some (e, rest) := by
  unfold getManifestEntry putManifestEntry
  simp only [List.append_assoc, getStr_put, getU32_put]

theorem getFileEntry_put (e : List Nat × List Nat) (rest : List Nat) :
    getFileEntry (putFileEntry e ++ rest) = some (e, rest) := by
  unfold getFileEntry putFileEntry
  simp only [List.append_assoc, getStr_put, getBlob_put]

theorem runExact_put {α : Type} (get1 : List Nat → Option (α × List Nat))
    (l : List Nat) (a : α)
    (h : ∀ rest, get1 (l ++ rest) = some (a, rest)) :
    runExact get1 l = some a := by
  have h2 := h []
  rw [List.append_nil] at h2
  unfold runExact
  rw [h2]

theorem rt_auth_challenge (nonce : List Nat) (h : nonce.length = 32) :
    deserialize_auth_challenge (serialize_auth_challenge nonce) = some nonce := by
  unfold deserialize_auth_challenge serialize_auth_challenge
  rw [if_pos h]

theorem rt_auth_response (pk name sig : List Nat)
    (hpk : pk.length = 32) (hsig : sig.length = 64) :
    deserialize_auth_response (serialize_auth_response pk name sig) =
      some (pk, name, sig) := by
  unfold deserialize_auth_response serialize_auth_response
  apply runExact_put
  intro rest
  simp only [List.append_assoc]
  rw [← hpk]
  simp only [getBytesN_put, getStr_put]
  rw [← hsig]
  simp only [getBytesN_put]

theorem rt_auth_result (code : Nat) :
    deserialize_auth_result (serialize_auth_result code) = some code := by
  unfold deserialize_auth_result serialize_auth_result
  exact runExact_put _ _ _ (getU8_put code)

theorem rt_server_hello (pid w h x y : Nat) (grid name : List Nat) :
    deserialize_server_hello (serialize_server_hello pid w h x y grid name) =
      some (pid, w, h, x, y, grid, name) := by
  unfold deserialize_server_hello serialize_server_hello
  apply runExact_put
  intro rest
  simp only [List.append_assoc, getU32_put, getU16_put, getBlob_put,
    getStr_put]

theorem rt_livekit_token (url token : List Nat) :
    deserialize_livekit_token (serialize_livekit_token url token) =
      some (url, token) := by
  unfold deserialize_livekit_token serialize_livekit_token
  apply runExact_put
  intro rest
  simp only [List.append_assoc, getStr_put]

theorem rt_level_manifest_request (name : List Nat) :
    deserialize_level_manifest_request (serialize_level_manifest_request name) =
      some name := by
  unfold deserialize_level_manifest_request serialize_level_manifest_request
  exact runExact_put _ _ _ (getStr_put name)

theorem rt_level_manifest (m : List (List Nat × List Nat × Nat)) :
    deserialize_level_manifest (serialize_level_manifest m) = some m := by
  unfold deserialize_level_manifest serialize_level_manifest putCounted
  apply runExact_put
  intro rest
  simp only [List.append_assoc, getU32_put,
    getCounted_put putManifestEntry getManifestEntry m
      (fun e _ rest2 => getManifestEntry_put e rest2)]

theorem rt_level_files_request (name : List Nat) (filenames : List (List Nat)) :
    deserialize_level_files_request
      (serialize_level_files_request name filenames) =
      some (name, filenames) := by
  unfold deserialize_level_files_request serialize_level_files_request
    putCounted
  apply runExact_put
  intro rest
  simp only [List.append_assoc, getStr_put, getU32_put,
    getCounted_put putStr getStr filenames
      (fun s _ rest2 => getStr_put s rest2)]

theorem rt_level_files_data (files : List (List Nat × List Nat)) :
    deserialize_level_files_data (serialize_level_files_data files) =
      some files := by
  unfold deserialize_level_files_data serialize_level_files_data putCounted
  apply runExact_put
  intro rest
  simp only [List.append_assoc, getU32_put,
    getCounted_put putFileEntry getFileEntry files
      (fun e _ rest2 => getFileEntry_put e rest2)]

theorem rt_position_update (seq x y : Nat) :
    deserialize_position_update (serialize_position_update seq x y) =
      some (seq, x, y) := by
  unfold deserialize_position_update serialize_position_update
  apply runExact_put
  intro rest
  simp only [List.append_assoc, getU32_put, getU16_put]

theorem rt_position_ack (seq x y : Nat) :
    deserialize_position_ack (serialize_position_ack seq x y) =
      some (seq, x, y) :=
  rt_position_update seq x y

theorem rt_door_transition (level : List Nat) (x y : Nat) :
    deserialize_door_transition (serialize_door_transition level x y) =
      some (level, x, y) := by
  unfold deserialize_door_transition serialize_door_transition
  apply runExact_put
  intro rest
  simp only [List.append_assoc, getStr_put, getU16_put]

theorem rt_world_state (ps : List PlayerInfoW) :
    deserialize_world_state (serialize_world_state ps) = some ps := by
  unfold deserialize_world_state serialize_world_state putCounted
  apply runExact_put
  intro rest
  simp only [List.append_assoc, getU32_put,
    getCounted_put putPlayerInfo getPlayerInfo ps
      (fun p _ rest2 => getPlayerInfo_put p rest2)]

theorem rt_player_joined (pid : Nat) (name : List Nat) :
    deserialize_player_joined (serialize_player_joined pid name) =
      some (pid, name) := by
  unfold deserialize_player_joined serialize_player_joined
  apply runExact_put
  intro rest
  simp only [List.append_assoc, getU32_put, getStr_put]

theorem rt_player_left (pid : Nat) :
    deserialize_player_left (serialize_player_left pid) = some pid := by
  unfold deserialize_player_left serialize_player_left
  exact runExact_put _ _ _ (getU32_put pid)

theorem rt_mute_status (m : Bool) :
    deserialize_mute_status (serialize_mute_status m) = some m := by
  cases m <;> rfl

theorem rt_ping : deserialize_ping serialize_ping = some () := rfl

theorem rt_pong : deserialize_pong serialize_pong = some () := rfl

end Proto

/-- C4 (confirmed, against the spec-modelled codec: `common/protocol.py` is
absent from `src/`).  For every message kind of the protocol's §4.1 table and
every legal payload, deserialising the serialised payload returns it
unchanged — in particular
`deserialize_position_update(serialize_position_update(seq, x, y)) =
(seq, x, y)` for all `seq < 2^32` and `x, y < 2^16`. -/
theorem claim_C4 :
    (∀ nonce : List Nat, nonce.length = 32 →
      Proto.deserialize_auth_challenge (Proto.serialize_auth_challenge nonce) =
        some nonce) ∧
    (∀ pk name sig : List Nat, pk.length = 32 → sig.length = 64 →
      Proto.legalStr name →
      Proto.deserialize_auth_response
        (Proto.serialize_auth_response pk name sig) = some (pk, name, sig)) ∧
    (∀ code : Nat, code < 256 →
      Proto.deserialize_auth_result (Proto.serialize_auth_result code) =
        some code) ∧
    (∀ pid w h x y grid name, pid < 4294967296 → w < 65536 → h < 65536 →
      x < 65536 → y < 65536 → Proto.legalBlob grid → Proto.legalStr name →
      Proto.deserialize_server_hello
        (Proto.serialize_server_hello pid w h x y grid name) =
        some (pid, w, h, x, y, grid, name)) ∧
    (∀ url token, Proto.legalStr url → Proto.legalStr token →
      Proto.deserialize_livekit_token
        (Proto.serialize_livekit_token url token) = some (url, token)) ∧
    (∀ name, Proto.legalStr name →
      Proto.deserialize_level_manifest_request
        (Proto.serialize_level_manifest_request name) = some name) ∧
    (∀ m : List (List Nat × List Nat × Nat),
      (∀ e ∈ m, Proto.legalStr e.1 ∧ Proto.legalStr e.2.1 ∧
        e.2.2 < 4294967296) →
      Proto.deserialize_level_manifest (Proto.serialize_level_manifest m) =
        some m) ∧
    (∀ name filenames, Proto.legalStr name →
      (∀ f ∈ filenames, Proto.legalStr f) →
      Proto.deserialize_level_files_request
        (Proto.serialize_level_files_request name filenames) =
        some (name, filenames)) ∧
    (∀ files : List (List Nat × List Nat),
      (∀ e ∈ files, Proto.legalStr e.1 ∧ Proto.legalBlob e.2) →
      Proto.deserialize_level_files_data
        (Proto.serialize_level_files_data files) = some files) ∧
    (∀ seq x y : Nat, seq < 4294967296 → x < 65536 → y < 65536 →
      Proto.deserialize_position_update
        (Proto.serialize_position_update seq x y) = some (seq, x, y)) ∧
    (∀ seq x y : Nat, seq < 4294967296 → x < 65536 → y < 65536 →
      Proto.deserialize_position_ack
        (Proto.serialize_position_ack seq x y) = some (seq, x, y)) ∧
    (∀ level x y, Proto.legalStr level → x < 65536 → y < 65536 →
      Proto.deserialize_door_transition
        (Proto.serialize_door_transition level x y) = some (level, x, y)) ∧
    (∀ ps : List Proto.PlayerInfoW, (∀ p ∈ ps, Proto.legalPlayerInfo p) →
      Proto.deserialize_world_state (Proto.serialize_world_state ps) =
        some ps) ∧
    (∀ pid name, pid < 4294967296 → Proto.legalStr name →
      Proto.deserialize_player_joined (Proto.serialize_player_joined pid name) =
        some (pid, name)) ∧
    (∀ pid : Nat, pid < 4294967296 →
      Proto.deserialize_player_left (Proto.serialize_player_left pid) =
        some pid) ∧
    (∀ m : Bool,
      Proto.deserialize_mute_status (Proto.serialize_mute_status m) =
        some m) ∧
    Proto.deserialize_ping Proto.serialize_ping = some () ∧
    Proto.deserialize_pong Proto.serialize_pong = some () :=
  ⟨fun nonce h => Proto.rt_auth_challenge nonce h,
   fun pk name sig hpk hsig _ => Proto.rt_auth_response pk name sig hpk hsig,
   fun code _ => Proto.rt_auth_result code,
   fun pid w h x y grid name _ _ _ _ _ _ _ =>
     Proto.rt_server_hello pid w h x y grid name,
   fun url token _ _ => Proto.rt_livekit_token url token,
   fun name _ => Proto.rt_level_manifest_request name,
   fun m _ => Proto.rt_level_manifest m,
   fun name filenames _ _ => Proto.rt_level_files_request name filenames,
   fun files _ => Proto.rt_level_files_data files,
   fun seq x y _ _ _ => Proto.rt_position_update seq x y,
   fun seq x y _ _ _ => Proto.rt_position_ack seq x y,
   fun level x y _ _ _ => Proto.rt_door_transition level x y,
   fun ps _ => Proto.rt_world_state ps,
   fun pid name _ _ => Proto.rt_player_joined pid name,
   fun pid _ => Proto.rt_player_left pid,
   Proto.rt_mute_status,
   Proto.rt_ping,
   Proto.rt_pong⟩

/-! ## The ack invariant (claim C3) -/

/-- A door transition preserves the movement invariant (the player's level is
loaded and their position is walkable and in bounds there), provided every
door target in the store is sound. -/
theorem doorStep_preserves (srv : ServerState) (q : Player) (info : DoorInfo)
    (seq : Int)
    (hdoors : doorTargetsOK srv)
    (hq1 : (lookupA srv.levels q.current_level).isSome = true)
    (hq2 : posOK srv q.current_level q.x q.y)
    (hmem : ∃ koord, (koord, info) ∈ (effLevel srv q.current_level).doors) :
    (lookupA srv.levels
      (handleDoorTransition srv q info seq).1.current_level).isSome = true ∧
    posOK srv (handleDoorTransition srv q info seq).1.current_level
      (handleDoorTransition srv q info seq).1.x
      (handleDoorTransition srv q info seq).1.y := by
  obtain ⟨lev, hlev⟩ := Option.isSome_iff_exists.mp hq1
  have hpr : (q.current_level, lev) ∈ srv.levels := lookupA_mem hlev
  have heff : effLevel srv q.current_level = lev := by
    unfold effLevel
    rw [hlev]
    rfl
  obtain ⟨koord, hkmem⟩ := hmem
  rw [heff] at hkmem
  have hd := hdoors (q.current_level, lev) hpr (koord, info) hkmem
  unfold handleDoorTransition
  dsimp only
  by_cases hsame : resolveTarget info.target_level q.current_level =
      q.current_level
  · rw [if_neg (by simp [hsame])]
    rw [if_pos (by simp [hsame])]
    have hok := hd.1 hsame
    exact ⟨hq1, hok⟩
  · by_cases hex : (lookupA srv.levels
        (resolveTarget info.target_level q.current_level)).isSome = true
    · rw [if_neg (by
        intro hc
        rw [Option.isNone_iff_eq_none] at hc
        rw [hc.2] at hex
        simp at hex)]
      rw [if_neg (by simp [hsame])]
      exact ⟨hex, hd.2 hsame hex⟩
    · rw [if_pos (by
        refine ⟨by simp [hsame], ?_⟩
        rw [Option.isNone_iff_eq_none]
        rw [Bool.not_eq_true] at hex
        exact Option.not_isSome_iff_eq_none.mp (by simp [hex]))]
      exact ⟨hq1, hq2⟩

/-- One `POSITION_UPDATE` preserves the movement invariant. -/
theorem step_preserves (srv : ServerState) (p : Player) (seq x y : Int)
    (hdoors : doorTargetsOK srv)
    (hp1 : (lookupA srv.levels p.current_level).isSome = true)
    (hp2 : posOK srv p.current_level p.x p.y) :
    (lookupA srv.levels
      (handlePositionUpdate srv p seq x y).1.current_level).isSome = true ∧
    posOK srv (handlePositionUpdate srv p seq x y).1.current_level
      (handlePositionUpdate srv p seq x y).1.x
      (handlePositionUpdate srv p seq x y).1.y := by
  unfold handlePositionUpdate
  dsimp only
  split_ifs with h1 h2 h3 h4
  · cases hdoor : (effLevel srv p.current_level).get_door_at x y with
    | some info =>
      simp only [hdoor]
      exact doorStep_preserves srv { p with x := x, y := y } info seq hdoors
        hp1 ⟨h2, h3⟩ ⟨(x, y), lookupA_mem hdoor⟩
    | none =>
      simp only [hdoor]
      exact ⟨hp1, h2, h3⟩
  · exact ⟨hp1, h2, h3⟩
  · exact ⟨hp1, hp2⟩
  · exact ⟨hp1, hp2⟩
  · exact ⟨hp1, hp2⟩

/-- The acks of a trace are exactly one per update, at the successive
post-update player positions. -/
theorem runTrace_acks (srv : ServerState) (p : Player)
    (trace : List (Int × Int × Int)) :
    acksOf (runTrace srv p trace).2 =
      List.zipWith (fun (m : Int × Int × Int) (q : Player) => (m.1, q.x, q.y))
        trace (statesAfter srv p trace) := by
  induction trace generalizing p with
  | nil => rfl
  | cons m rest ih =>
    obtain ⟨seq, x, y⟩ := m
    unfold runTrace statesAfter
    dsimp only
    rw [acksOf, List.filterMap_append, ← acksOf, ← acksOf,
      handlePositionUpdate_ack, List.zipWith_cons_cons]
    rw [ih (handlePositionUpdate srv p seq x y).1]
    rfl

/-- Every intermediate player state of a trace keeps a walkable in-bounds
position on its (loaded) level, under sound door targets and a sound start. -/
theorem statesAfter_posOK (srv : ServerState) (p : Player)
    (trace : List (Int × Int × Int))
    (hdoors : doorTargetsOK srv)
    (hp1 : (lookupA srv.levels p.current_level).isSome = true)
    (hp2 : posOK srv p.current_level p.x p.y) :
    ∀ q ∈ statesAfter srv p trace, posOK srv q.current_level q.x q.y := by
  induction trace generalizing p with
  | nil => intro q hq; cases hq
  | cons m rest ih =>
    obtain ⟨seq, x, y⟩ := m
    intro q hq
    unfold statesAfter at hq
    have hstep := step_preserves srv p seq x y hdoors hp1 hp2
    rcases List.mem_cons.mp hq with h | h
    · subst h
      exact hstep.2
    · exact ih (handlePositionUpdate srv p seq x y).1 hstep.1 hstep.2 q h

/-- The ack sequence numbers of a trace echo the update sequence numbers. -/
theorem runTrace_seqs (srv : ServerState) (p : Player)
    (trace : List (Int × Int × Int)) :
    (acksOf (runTrace srv p trace).2).map (·.1) = trace.map (·.1) := by
  induction trace generalizing p with
  | nil => rfl
  | cons m rest ih =>
    obtain ⟨seq, x, y⟩ := m
    unfold runTrace
    dsimp only
    rw [acksOf, List.filterMap_append, ← acksOf, ← acksOf,
      handlePositionUpdate_ack, List.map_append]
    rw [ih (handlePositionUpdate srv p seq x y).1]
    rfl

/-- C3 (corrected).  For a player whose current level is loaded and whose
position is walkable and in bounds there, if every door target of the level
store is walkable and in bounds in its resolved level and the client's
`POSITION_UPDATE` sequence numbers are non-decreasing, then every
`POSITION_ACK(seq, x, y)` sent carries a walkable in-bounds position of the
player's then-current level, with non-decreasing `seq`s. -/
theorem claim_C3_amended (srv : ServerState) (p : Player)
    (trace : List (Int × Int × Int))
    (hdoors : doorTargetsOK srv)
    (hp1 : (lookupA srv.levels p.current_level).isSome = true)
    (hp2 : posOK srv p.current_level p.x p.y)
    (hmono : seqsNonDecreasing (trace.map (·.1)) = true) :
    ackInvariantClaim srv p trace := by
  refine ⟨runTrace_acks srv p trace,
    statesAfter_posOK srv p trace hdoors hp1 hp2, ?_⟩
  rw [runTrace_seqs srv p trace]
  exact hmono

/-- Witness for C3: a two-step trace on `srvA` that walks through the
cross-level door. -/
theorem claim_C3_amended_witness :
    ackInvariantClaim srvA pA [(1, 2, 1), (2, 3, 1)] :=
  claim_C3_amended srvA pA [(1, 2, 1), (2, 3, 1)]
    (by decide) (by decide) (by decide) (by decide)

/-- C3 as stated is false: a teleporter whose target is a wall (a
configuration the level loader only warns about) makes the server ack a
non-walkable position. -/
theorem claim_C3_counterexample :
    ¬ ackInvariantClaim srvC pC [(5, 2, 1)] := by
  decide

/-! ## A* soundness (claim C9) -/

namespace Path

theorem lookupA_cons_self {β : Type} (k : Pos) (v : β) (l : List (Pos × β)) :
    lookupA ((k, v) :: l) k = some v := by
  simp [lookupA]

theorem lookupA_cons_ne {β : Type} {k a : Pos} (v : β) (l : List (Pos × β))
    (h : a ≠ k) : lookupA ((k, v) :: l) a = lookupA l a := by
  unfold lookupA
  rw [if_neg (fun he => h he.symm)]
  cases l <;> rfl

/-- `heappop` returns an element of the heap. -/
theorem popMin_mem {l : List Node} {n : Node} {rest : List Node}
    (h : popMin l = some (n, rest)) : n ∈ l := by
  induction l generalizing n rest with
  | nil => simp [popMin] at h
  | cons a t ih =>
    unfold popMin at h
    cases hp : popMin t with
    | none =>
      rw [hp] at h
      simp at h
      simp [h.1]
    | some pr =>
      rw [hp] at h
      by_cases hf : pr.1.f < a.f
      · simp only [hf, if_pos] at h
        have := ih (show popMin t = some (pr.1, pr.2) by rw [hp])
        cases h
        exact List.mem_cons_of_mem _ (by simpa using this)
      · simp only [hf, if_neg, if_false] at h
        cases h
        exact List.mem_cons_self _ _

/-- Everything left after a `heappop` was in the heap. -/
theorem popMin_rest {l : List Node} {n : Node} {rest : List Node}
    (h : popMin l = some (n, rest)) : ∀ x ∈ rest, x ∈ l := by
  induction l generalizing n rest with
  | nil => simp [popMin] at h
  | cons a t ih =>
    unfold popMin at h
    cases hp : popMin t with
    | none =>
      rw [hp] at h
      simp at h
      intro x hx
      rw [h.2] at hx
      cases hx
    | some pr =>
      rw [hp] at h
      by_cases hf : pr.1.f < a.f
      · simp only [hf, if_pos] at h
        cases h
        intro x hx
        rcases List.mem_cons.mp hx with hx | hx
        · simp [hx]
        · exact List.mem_cons_of_mem _
            (ih (show popMin t = some (pr.1, pr.2) by rw [hp]) x hx)
      · simp only [hf, if_neg, if_false] at h
        cases h
        intro x hx
        exact List.mem_cons_of_mem _ hx

theorem gVal_cons_self (k : Pos) (v : Nat) (gs : List (Pos × Nat)) :
    gVal ((k, v) :: gs) k = v := by
  rw [gVal, lookupA_cons_self]
  rfl

theorem gVal_cons_ne {k a : Pos} (v : Nat) (gs : List (Pos × Nat))
    (h : a ≠ k) : gVal ((k, v) :: gs) a = gVal gs a := by
  rw [gVal, lookupA_cons_ne _ _ h, gVal]

/-- Path reconstruction from a sound `came_from`: with enough fuel (any
bound above the recorded cost of the tail node), the result starts at
`start`, chains legal steps, and keeps the accumulated tail. -/
theorem reconstruct_sound (W : Pos → Bool) (start : Pos)
    (cf : List (Pos × Pos)) (gs : List (Pos × Nat))
    (hinv : ∀ pos parent, lookupA cf pos = some parent →
      stepOk W parent pos ∧
      (parent = start ∨ (lookupA cf parent).isSome = true) ∧
      gVal gs parent + 1 ≤ gVal gs pos) :
    ∀ (fuel : Nat) (cur : Pos) (acc : List Pos),
    (cur = start ∨ (lookupA cf cur).isSome = true) →
    gVal gs cur < fuel →
    List.Chain' (stepOk W) (cur :: acc) →
    (reconstruct cf fuel cur acc).head? = some start ∧
    List.Chain' (stepOk W) (reconstruct cf fuel cur acc) ∧
    (reconstruct cf fuel cur acc).getLast? = (cur :: acc).getLast? := by
  intro fuel
  induction fuel with
  | zero => intro cur acc _ hg; exact absurd hg (by omega)
  | succ fuel ih =>
    intro cur acc hcur hg hchain
    unfold reconstruct
    cases hl : lookupA cf cur with
    | none =>
      have hstart : cur = start := by
        rcases hcur with h | h
        · exact h
        · rw [hl] at h; simp at h
      subst hstart
      exact ⟨rfl, hchain, rfl⟩
    | some parent =>
      have hb := hinv cur parent hl
      have h1 : parent = start ∨ (lookupA cf parent).isSome = true := hb.2.1
      have h2 : gVal gs parent < fuel := by
        have := hb.2.2
        omega
      have h3 : List.Chain' (stepOk W) (parent :: cur :: acc) :=
        List.chain'_cons.mpr ⟨hb.1, hchain⟩
      have hrec := ih parent (cur :: acc) h1 h2 h3
      refine ⟨hrec.1, hrec.2.1, ?_⟩
      rw [hrec.2.2]
      rfl

/-- Rebinding `nb ↦ current` with cost `currentG + 1` keeps the binding
invariant, when `nb` is strictly improved, is not the start, differs from
`current`, and the step is legal. -/
theorem updated_inv_core (W : Pos → Bool) (start current nb : Pos)
    (currentG : Nat) (st : AState)
    (hInv : Inv W start st) (hstep : stepOk W current nb)
    (hcur : current = start ∨ (lookupA st.cameFrom current).isSome = true)
    (hgc : lookupA st.gScores current = some currentG)
    (hnbst : nb ≠ start) (hnbcur : nb ≠ current)
    (hbetter : ∀ g, lookupA st.gScores nb = some g → currentG + 1 < g) :
    (∀ pos parent, lookupA ((nb, current) :: st.cameFrom) pos = some parent →
      stepOk W parent pos ∧
      (parent = start ∨
        (lookupA ((nb, current) :: st.cameFrom) parent).isSome = true) ∧
      gVal ((nb, currentG + 1) :: st.gScores) parent + 1 ≤
        gVal ((nb, currentG + 1) :: st.gScores) pos ∧
      (lookupA ((nb, currentG + 1) :: st.gScores) pos).isSome = true ∧
      (lookupA ((nb, currentG + 1) :: st.gScores) parent).isSome = true) ∧
    lookupA ((nb, current) :: st.cameFrom) start = none ∧
    lookupA ((nb, currentG + 1) :: st.gScores) start = some 0 := by
  obtain ⟨hbind, hopen, hcfstart, hgsstart⟩ := hInv
  refine ⟨?_, ?_, ?_⟩
  · intro pos parent hlp
    by_cases hpos : pos = nb
    · subst hpos
      rw [lookupA_cons_self] at hlp
      cases hlp
      refine ⟨hstep, ?_, ?_, ?_, ?_⟩
      · rcases hcur with h | h
        · exact Or.inl h
        · refine Or.inr ?_
          rw [lookupA_cons_ne _ _ (fun he => hnbcur he.symm)]
          exact h
      · rw [gVal_cons_ne _ _ (fun he => hnbcur he.symm), gVal_cons_self,
          gVal, hgc]
        simp
      · rw [lookupA_cons_self]; rfl
      · rw [lookupA_cons_ne _ _ (fun he => hnbcur he.symm), hgc]; rfl
    · rw [lookupA_cons_ne _ _ hpos] at hlp
      have hb := hbind pos parent hlp
      refine ⟨hb.1, ?_, ?_, ?_, ?_⟩
      · rcases hb.2.1 with h | h
        · exact Or.inl h
        · refine Or.inr ?_
          by_cases hpar : parent = nb
          · subst hpar; rw [lookupA_cons_self]; rfl
          · rw [lookupA_cons_ne _ _ hpar]; exact h
      · rw [gVal_cons_ne _ _ hpos]
        by_cases hpar : parent = nb
        · subst hpar
          rw [gVal_cons_self]
          obtain ⟨g, hg⟩ := Option.isSome_iff_exists.mp hb.2.2.2.2
          have hlt := hbetter g hg
          have hge := hb.2.2.1
          rw [gVal, hg] at hge
          simp only [Option.getD_some] at hge
          omega
        · rw [gVal_cons_ne _ _ hpar]
          exact hb.2.2.1
      · rw [lookupA_cons_ne _ _ hpos]
        exact hb.2.2.2.1
      · by_cases hpar : parent = nb
        · subst hpar; rw [lookupA_cons_self]; rfl
        · rw [lookupA_cons_ne _ _ hpar]; exact hb.2.2.2.2
  · rw [lookupA_cons_ne _ _ (fun he => hnbst he.symm)]
    exact hcfstart
  · rw [lookupA_cons_ne _ _ (fun he => hnbst he.symm)]
    exact hgsstart

/-- Each of the 8 neighbours is at Chebyshev distance exactly 1 and differs
from the centre. -/
theorem neighbor_cheb (cx cy : Int) (nb : Pos)
    (hnb : nb ∈ getNeighbors cx cy) :
    max (nb.1 - cx).natAbs (nb.2 - cy).natAbs = 1 ∧ nb ≠ (cx, cy) := by
  simp only [getNeighbors, List.mem_cons, List.not_mem_nil, or_false] at hnb
  rcases hnb with h|h|h|h|h|h|h|h <;> subst h <;>
    refine ⟨by simp, fun he => ?_⟩ <;>
    · rw [Prod.ext_iff] at he
      simp at he

/-- `processNeighbor` preserves the invariant, the recorded cost of the
current node, and its reachability disjunct. -/
theorem processNeighbor_inv (W : Pos → Bool) (start goal : Pos)
    (cx cy : Int) (nb : Pos) (currentG : Nat) (st : AState)
    (hnb : nb ∈ getNeighbors cx cy)
    (hInv : Inv W start st)
    (hcur : (cx, cy) = start ∨ (lookupA st.cameFrom (cx, cy)).isSome = true)
    (hgc : lookupA st.gScores (cx, cy) = some currentG) :
    Inv W start (processNeighbor W goal (cx, cy) currentG st nb) ∧
    lookupA (processNeighbor W goal (cx, cy) currentG st nb).gScores
      (cx, cy) = some currentG ∧
    ((cx, cy) = start ∨
      (lookupA (processNeighbor W goal (cx, cy) currentG st nb).cameFrom
        (cx, cy)).isSome = true) := by
  have hgeo := neighbor_cheb cx cy nb hnb
  have hne_cur : nb ≠ (cx, cy) := hgeo.2
  unfold processNeighbor
  dsimp only
  cases hw : W nb with
  | false =>
    rw [if_pos (by simp [hw])]
    exact ⟨hInv, hgc, hcur⟩
  | true =>
    rw [if_neg (by simp [hw])]
    by_cases hguard : (nb.1 - (cx, cy).1 ≠ 0 ∧ nb.2 - (cx, cy).2 ≠ 0 ∧
        ¬ (W ((cx, cy).1 + (nb.1 - (cx, cy).1), (cx, cy).2) = true ∧
           W ((cx, cy).1, (cx, cy).2 + (nb.2 - (cx, cy).2)) = true))
    · rw [if_pos hguard]
      exact ⟨hInv, hgc, hcur⟩
    · rw [if_neg hguard]
      have hstep : stepOk W (cx, cy) nb := by
        refine ⟨hgeo.1, hw, fun hd => ?_⟩
        by_contra hc
        exact hguard ⟨hd.1, hd.2, hc⟩
      have hmono : ∀ (q : Pos) (v : Pos) (cf : List (Pos × Pos)),
          (lookupA cf q).isSome = true →
          (lookupA ((nb, v) :: cf) q).isSome = true := by
        intro q v cf hq
        by_cases hqn : q = nb
        · subst hqn; rw [lookupA_cons_self]; rfl
        · rw [lookupA_cons_ne _ _ hqn]; exact hq
      have hfinish : ∀ hbetter : (∀ g, lookupA st.gScores nb = some g →
            currentG + 1 < g), nb ≠ start →
          Inv W start
            (if nb ∈ st.openPositions then
              { st with cameFrom := (nb, (cx, cy)) :: st.cameFrom,
                        gScores := (nb, currentG + 1) :: st.gScores }
            else
              { openSet := st.openSet ++
                  [⟨currentG + 1 + heuristic nb goal, nb, currentG + 1⟩],
                cameFrom := (nb, (cx, cy)) :: st.cameFrom,
                gScores := (nb, currentG + 1) :: st.gScores,
                openPositions := nb :: st.openPositions }) ∧
          lookupA ((nb, currentG + 1) :: st.gScores) (cx, cy) =
            some currentG ∧
          ((cx, cy) = start ∨
            (lookupA ((nb, (cx, cy)) :: st.cameFrom) (cx, cy)).isSome =
              true) := by
        intro hbetter hnbst
        have hcore := updated_inv_core W start (cx, cy) nb currentG st hInv
          hstep hcur hgc hnbst hne_cur hbetter
        refine ⟨?_, ?_, ?_⟩
        · by_cases hop : nb ∈ st.openPositions
          · rw [if_pos hop]
            refine ⟨hcore.1, ?_, hcore.2.1, hcore.2.2⟩
            intro nd hnd
            rcases hInv.2.1 nd hnd with h | h
            · exact Or.inl h
            · exact Or.inr (hmono _ _ _ h)
          · rw [if_neg hop]
            refine ⟨hcore.1, ?_, hcore.2.1, hcore.2.2⟩
            intro nd hnd
            rcases List.mem_append.mp hnd with h | h
            · rcases hInv.2.1 nd h with h2 | h2
              · exact Or.inl h2
              · exact Or.inr (hmono _ _ _ h2)
            · rcases List.mem_singleton.mp h with rfl
              refine Or.inr ?_
              rw [lookupA_cons_self]
              rfl
        · rw [lookupA_cons_ne _ _ (fun he => hne_cur he.symm)]
          exact hgc
        · rcases hcur with h | h
          · exact Or.inl h
          · exact Or.inr (hmono _ _ _ h)
      cases hbs : lookupA st.gScores nb with
      | none =>
        have hnbst : nb ≠ start := by
          intro he
          rw [he, hInv.2.2.2] at hbs
          cases hbs
        have hbetter : ∀ g, lookupA st.gScores nb = some g →
            currentG + 1 < g := by
          intro g hg
          rw [hbs] at hg
          cases hg
        simp only [hbs]
        rw [if_pos trivial]
        have hf := hfinish hbetter hnbst
        refine ⟨hf.1, ?_, ?_⟩ <;>
          by_cases hop : nb ∈ st.openPositions <;>
            simp only [hop, if_pos, if_neg, if_true, if_false] <;>
            first
              | exact hf.2.1
              | exact hf.2.2
      | some g =>
        simp only [hbs]
        by_cases hlt : currentG + 1 < g
        · have hnbst : nb ≠ start := by
            intro he
            rw [he, hInv.2.2.2] at hbs
            cases hbs
            omega
          have hbetter : ∀ g', lookupA st.gScores nb = some g' →
              currentG + 1 < g' := by
            intro g' hg'
            rw [hbs] at hg'
            cases hg'
            exact hlt
          rw [if_pos (by simpa using hlt)]
          have hf := hfinish hbetter hnbst
          refine ⟨hf.1, ?_, ?_⟩ <;>
            by_cases hop : nb ∈ st.openPositions <;>
              simp only [hop, if_pos, if_neg, if_true, if_false] <;>
              first
                | exact hf.2.1
                | exact hf.2.2
        · rw [if_neg (by simpa using hlt)]
          exact ⟨hInv, hgc, hcur⟩

/-- The whole neighbour loop preserves the invariant. -/
theorem foldNeighbors_inv (W : Pos → Bool) (start goal current : Pos)
    (currentG : Nat) :
    ∀ (l : List Pos) (st : AState),
    (∀ nb ∈ l, nb ∈ getNeighbors current.1 current.2) →
    Inv W start st →
    (current = start ∨ (lookupA st.cameFrom current).isSome = true) →
    lookupA st.gScores current = some currentG →
    Inv W start (l.foldl (processNeighbor W goal current currentG) st) := by
  intro l
  induction l with
  | nil => intro st _ hInv _ _; exact hInv
  | cons nb rest ih =>
    intro st hmem hInv hcur hgc
    rw [List.foldl_cons]
    have hp := processNeighbor_inv W start goal current.1 current.2 nb
      currentG st (hmem nb (List.mem_cons_self _ _)) hInv hcur hgc
    exact ih _ (fun b hb => hmem b (List.mem_cons_of_mem _ hb))
      hp.1 hp.2.2 hp.2.1

/-- Any path the main loop returns from an invariant state starts at
`start`, ends at `goal`, and chains legal steps. -/
theorem aStarLoop_sound (W : Pos → Bool) (start goal : Pos) :
    ∀ (fuel : Nat) (st : AState) (path : List Pos),
    Inv W start st →
    aStarLoop W goal fuel st = some path →
    path.head? = some start ∧ path.getLast? = some goal ∧
    List.Chain' (stepOk W) path := by
  intro fuel
  induction fuel with
  | zero => intro st path _ h; cases h
  | succ fuel ih =>
    intro st path hInv hrun
    unfold aStarLoop at hrun
    cases hpop : popMin st.openSet with
    | none => rw [hpop] at hrun; cases hrun
    | some pr =>
      obtain ⟨node, rest⟩ := pr
      rw [hpop] at hrun
      dsimp only at hrun
      have hmem := popMin_mem hpop
      have hrest := popMin_rest hpop
      have hdisj : node.position = start ∨
          (lookupA st.cameFrom node.position).isSome = true :=
        hInv.2.1 node hmem
      by_cases hgoal : node.position = goal
      · rw [if_pos hgoal] at hrun
        rw [← hgoal] at hrun
        have hrec := reconstruct_sound W start st.cameFrom st.gScores
          (fun pos parent h =>
            ⟨(hInv.1 pos parent h).1, (hInv.1 pos parent h).2.1,
             (hInv.1 pos parent h).2.2.1⟩)
          ((lookupA st.gScores node.position).getD 0 + 1) node.position []
          hdisj (by rw [gVal]; omega) (List.chain'_singleton _)
        cases hrun
        refine ⟨hrec.1, ?_, hrec.2.1⟩
        rw [hrec.2.2, hgoal]
        rfl
      · rw [if_neg hgoal] at hrun
        have hgsome : (lookupA st.gScores node.position).isSome = true := by
          rcases hdisj with h | h
          · rw [h, hInv.2.2.2]; rfl
          · obtain ⟨parent, hp⟩ := Option.isSome_iff_exists.mp h
            exact (hInv.1 node.position parent hp).2.2.2.1
        obtain ⟨cg, hcg⟩ := Option.isSome_iff_exists.mp hgsome
        have hInv1 : Inv W start
            { st with openSet := rest, openPositions := st.openPositions.filter (· ≠ node.position) } := by
          refine ⟨hInv.1, ?_, hInv.2.2.1, hInv.2.2.2⟩
          intro nd hnd
          exact hInv.2.1 nd (hrest nd hnd)
        have hfold := foldNeighbors_inv W start goal node.position
          ((lookupA st.gScores node.position).getD 0)
          (getNeighbors node.position.1 node.position.2)
          { st with openSet := rest, openPositions := st.openPositions.filter (· ≠ node.position) }
          (fun nb h => h) hInv1 hdisj (by rw [hcg]; rfl)
        exact ih _ path hfold hrun

end Path

/-- C9 (confirmed).  For `start ≠ goal`, every path `find_path` returns
begins at `start`, ends at `goal`, and every consecutive pair is a legal
step: Chebyshev distance exactly 1, a walkable landing tile (so every
position after `start` is walkable), and, for a diagonal step, both
orthogonal neighbours walkable. -/
theorem claim_C9 (start goal : Path.Pos) (W : Path.Pos → Bool)
    (maxIter : Nat) (path : List Path.Pos)
    (hne : start ≠ goal)
    (hrun : Path.find_path start goal W maxIter = some path) :
    path.head? = some start ∧ path.getLast? = some goal ∧
    List.Chain' (Path.stepOk W) path := by
  unfold Path.find_path at hrun
  rw [if_neg hne] at hrun
  cases hwg : W goal with
  | false => rw [if_pos (by simp [hwg])] at hrun; cases hrun
  | true =>
    rw [if_neg (by simp [hwg])] at hrun
    refine Path.aStarLoop_sound W start goal maxIter _ path ?_ hrun
    refine ⟨?_, ?_, rfl, Path.lookupA_cons_self _ _ _⟩
    · intro pos parent h
      simp [lookupA] at h
    · intro nd hnd
      rcases List.mem_singleton.mp hnd with rfl
      exact Or.inl rfl

/-- Witness for C9: the diagonal path found across a fully walkable 3×3
grid starts at the start, ends at the goal, and chains legal steps. -/
theorem claim_C9_witness :
    ([((0 : Int), (0 : Int)), (1, 1), (2, 2)].head? = some (0, 0)) ∧
    ([((0 : Int), (0 : Int)), (1, 1), (2, 2)].getLast? = some (2, 2)) ∧
    List.Chain'
      (Path.stepOk (fun p => decide (0 ≤ p.1 ∧ p.1 ≤ 2 ∧ 0 ≤ p.2 ∧ p.2 ≤ 2)))
      [((0 : Int), (0 : Int)), (1, 1), (2, 2)] :=
  claim_C9 (0, 0) (2, 2)
    (fun p => decide (0 ≤ p.1 ∧ p.1 ≤ 2 ∧ 0 ≤ p.2 ∧ p.2 ≤ 2)) 100
    [(0, 0), (1, 1), (2, 2)] (by decide) (by decide)

/-- Witness for C4: concrete round trips for a position update and a
world state. -/
theorem claim_C4_witness :
    Proto.deserialize_position_update
      (Proto.serialize_position_update 12345 50 30) = some (12345, 50, 30) ∧
    Proto.deserialize_world_state
      (Proto.serialize_world_state [⟨1, 10, 20, false, [97], [109], 42⟩]) =
      some [⟨1, 10, 20, false, [97], [109], 42⟩] :=
  ⟨(claim_C4.2.2.2.2.2.2.2.2.2.1) 12345 50 30 (by decide) (by decide)
     (by decide),
   (claim_C4.2.2.2.2.2.2.2.2.2.2.2.2.1)
     [⟨1, 10, 20, false, [97], [109], 42⟩] (by decide)⟩

end RogueTalk
